import Mathlib

/-!
# Verification of the Orpheus utility scripts

Shallow embedding, in Lean 4, of the parts of `utils/utils.py` and
`check_md5_tags.py` that the specification talks about.  Machine
integers are modelled as `Nat` with explicit reductions `% 2^32`;
file bytes are `List Nat` (each entry `< 256`); fallible operations
return `Except String`.  External effects (the file system, the
`ffmpeg` subprocess, the network, the `mutagen` tag reader) are
modelled by explicit oracle records whose fields give the outcome of
each external call, and by effect traces recording the writes each
function performs.
-/

set_option maxRecDepth 4000

/-! ## 32-bit arithmetic helpers (MD5 works on 32-bit words) -/

def U32 : Nat := 4294967296

def w32 (n : Nat) : Nat := n % U32

def add32 (a b : Nat) : Nat := (a + b) % U32

def not32 (a : Nat) : Nat := Nat.xor (a % U32) 4294967295

def rotl32 (x s : Nat) : Nat := ((x <<< s) % U32) ||| ((x % U32) >>> (32 - s))

/-! ## MD5 (RFC 1321), the algorithm `hashlib.md5` implements -/

def mdF (b c d : Nat) : Nat := (b &&& c) ||| (not32 b &&& d)

def mdG (b c d : Nat) : Nat := (d &&& b) ||| (not32 d &&& c)

def mdH (b c d : Nat) : Nat := Nat.xor (Nat.xor b c) d

def mdI (b c d : Nat) : Nat := Nat.xor c (b ||| not32 d)

def mdK : List Nat := [
  0xd76aa478, 0xe8c7b756, 0x242070db, 0xc1bdceee,
  0xf57c0faf, 0x4787c62a, 0xa8304613, 0xfd469501,
  0x698098d8, 0x8b44f7af, 0xffff5bb1, 0x895cd7be,
  0x6b901122, 0xfd987193, 0xa679438e, 0x49b40821,
  0xf61e2562, 0xc040b340, 0x265e5a51, 0xe9b6c7aa,
  0xd62f105d, 0x02441453, 0xd8a1e681, 0xe7d3fbc8,
  0x21e1cde6, 0xc33707d6, 0xf4d50d87, 0x455a14ed,
  0xa9e3e905, 0xfcefa3f8, 0x676f02d9, 0x8d2a4c8a,
  0xfffa3942, 0x8771f681, 0x6d9d6122, 0xfde5380c,
  0xa4beea44, 0x4bdecfa9, 0xf6bb4b60, 0xbebfbc70,
  0x289b7ec6, 0xeaa127fa, 0xd4ef3085, 0x04881d05,
  0xd9d4d039, 0xe6db99e5, 0x1fa27cf8, 0xc4ac5665,
  0xf4292244, 0x432aff97, 0xab9423a7, 0xfc93a039,
  0x655b59c3, 0x8f0ccc92, 0xffeff47d, 0x85845dd1,
  0x6fa87e4f, 0xfe2ce6e0, 0xa3014314, 0x4e0811a1,
  0xf7537e82, 0xbd3af235, 0x2ad7d2bb, 0xeb86d391]

def mdS : List Nat := [
  7, 12, 17, 22, 7, 12, 17, 22, 7, 12, 17, 22, 7, 12, 17, 22,
  5, 9, 14, 20, 5, 9, 14, 20, 5, 9, 14, 20, 5, 9, 14, 20,
  4, 11, 16, 23, 4, 11, 16, 23, 4, 11, 16, 23, 4, 11, 16, 23,
  6, 10, 15, 21, 6, 10, 15, 21, 6, 10, 15, 21, 6, 10, 15, 21]

structure MDState where
  a : Nat
  b : Nat
  c : Nat
  d : Nat
deriving Repr, DecidableEq

def mdInit : MDState := ⟨0x67452301, 0xefcdab89, 0x98badcfe, 0x10325476⟩

def mdMix (m : Nat → Nat) (st : MDState) (i : Nat) : MDState :=
  let f :=
    if i < 16 then mdF st.b st.c st.d
    else if i < 32 then mdG st.b st.c st.d
    else if i < 48 then mdH st.b st.c st.d
    else mdI st.b st.c st.d
  let g :=
    if i < 16 then i
    else if i < 32 then (5 * i + 1) % 16
    else if i < 48 then (3 * i + 5) % 16
    else (7 * i) % 16
  let tmp := add32 (add32 (add32 f st.a) (mdK.getD i 0)) (m g)
  ⟨st.d, add32 st.b (rotl32 tmp (mdS.getD i 0)), st.b, st.c⟩

/-- Little-endian byte decomposition: the low `k` bytes of `n`. -/
def bytesLE (k n : Nat) : List Nat :=
  match k with
  | 0 => []
  | j + 1 => n % 256 :: bytesLE j (n / 256)

def mdCompress (st : MDState) (block : List Nat) : MDState :=
  let m : Nat → Nat := fun j =>
    block.getD (4 * j) 0 + 256 * block.getD (4 * j + 1) 0 +
      65536 * block.getD (4 * j + 2) 0 + 16777216 * block.getD (4 * j + 3) 0
  let r := (List.range 64).foldl (mdMix m) st
  ⟨add32 st.a r.a, add32 st.b r.b, add32 st.c r.c, add32 st.d r.d⟩

/-- MD5 padding: a `0x80` byte, zeros up to 56 mod 64, then the bit
length as 8 little-endian bytes. -/
def mdPad (msg : List Nat) : List Nat :=
  msg ++ 0x80 :: List.replicate ((119 - msg.length % 64) % 64) 0 ++
    bytesLE 8 (8 * msg.length)

/-- Split a list into chunks of `n` elements (the last one may be
shorter), as `iter(lambda: f.read(4096), b"")` yields a file. -/
def chunksOf (n : Nat) (l : List α) : List (List α) :=
  if _h : n = 0 ∨ l.length = 0 then [] else l.take n :: chunksOf n (l.drop n)
termination_by l.length
decreasing_by
  simp only [not_or] at _h
  simp only [List.length_drop]
  omega

def md5Bytes (msg : List Nat) : List Nat :=
  let st := (chunksOf 64 (mdPad msg)).foldl mdCompress mdInit
  bytesLE 4 st.a ++ bytesLE 4 st.b ++ bytesLE 4 st.c ++ bytesLE 4 st.d

def hexDigitChar (n : Nat) : Char :=
  if n < 10 then Char.ofNat (48 + n) else Char.ofNat (87 + n)

def byteToHex (b : Nat) : List Char := [hexDigitChar (b / 16), hexDigitChar (b % 16)]

/-- `hashlib.md5(msg).hexdigest()`: the MD5 digest of `msg` printed as
lowercase hex. -/
def md5Hex (msg : List Nat) : String := ⟨(md5Bytes msg).flatMap byteToHex⟩

/-! ## The `hashlib.md5()` incremental-hash object

`update` appends bytes; `hexdigest` hashes everything fed so far
(hashlib's documented semantics: `update(a); update(b)` is
`update(a+b)`). -/

structure HashMD5 where
  fed : List Nat
deriving Repr, DecidableEq

def HashMD5.update (h : HashMD5) (chunk : List Nat) : HashMD5 := ⟨h.fed ++ chunk⟩

def HashMD5.hexdigest (h : HashMD5) : String := md5Hex h.fed

/-! ## `calculate_file_md5` (utils/utils.py lines 15-24)

The file system is an oracle: `contents` is what reading
`file_path` yields — the byte content, or an `OSError`/`IOError`
message.  The function streams the content in 4096-byte chunks into
an MD5 object and returns the hex digest; an I/O error is re-raised
wrapped in a message naming the file. -/

def calculate_file_md5 (file_path : String) (contents : Except String (List Nat)) :
    Except String String :=
  match contents with
  | .error e => .error ("Error calculating MD5 hash for " ++ file_path ++ ": " ++ e)
  | .ok bytes =>
    let hash_md5 := (chunksOf 4096 bytes).foldl HashMD5.update ⟨[]⟩
    .ok hash_md5.hexdigest

/-! ### Supporting lemmas -/

theorem chunksOf_flatten {α : Type} (n : Nat) (hn : 0 < n) :
    ∀ l : List α, (chunksOf n l).flatten = l := by
  have H : ∀ k : Nat, ∀ l : List α, l.length ≤ k → (chunksOf n l).flatten = l := by
    intro k
    induction k with
    | zero =>
      intro l hl
      have hnil : l = [] := List.length_eq_zero.mp (by omega)
      subst hnil
      unfold chunksOf
      simp
    | succ k ih =>
      intro l hl
      unfold chunksOf
      by_cases h : n = 0 ∨ l.length = 0
      · rcases h with h | h
        · omega
        · have hnil : l = [] := List.length_eq_zero.mp h
          simp [hnil]
      · rw [dif_neg h]
        simp only [not_or] at h
        have hdrop : (l.drop n).length ≤ k := by
          simp only [List.length_drop]; omega
        rw [List.flatten_cons, ih (l.drop n) hdrop, List.take_append_drop]
  exact fun l => H l.length l le_rfl

theorem foldl_update_fed (chunks : List (List Nat)) (init : List Nat) :
    (chunks.foldl HashMD5.update ⟨init⟩).fed = init ++ chunks.flatten := by
  induction chunks generalizing init with
  | nil => simp
  | cons c cs ih =>
    simp only [List.foldl_cons, HashMD5.update, List.flatten_cons, ih, List.append_assoc]

theorem length_bytesLE (k n : Nat) : (bytesLE k n).length = k := by
  induction k generalizing n with
  | zero => rfl
  | succ j ih => simp [bytesLE, ih]

theorem length_md5Bytes (msg : List Nat) : (md5Bytes msg).length = 16 := by
  simp [md5Bytes, length_bytesLE]

theorem length_flatMap_byteToHex (bs : List Nat) :
    (bs.flatMap byteToHex).length = 2 * bs.length := by
  induction bs with
  | nil => rfl
  | cons b t ih => simp [byteToHex, ih]; omega

theorem length_md5Hex (msg : List Nat) : (md5Hex msg).length = 32 := by
  have h : (md5Hex msg).length = ((md5Bytes msg).flatMap byteToHex).length := rfl
  rw [h, length_flatMap_byteToHex, length_md5Bytes]

/-- C7: `calculate_file_md5` streams the file in 4096-byte chunks and
returns the standard MD5 digest of the file's entire byte content as a
32-character hex string; on an I/O error it returns no value but
propagates an exception whose message wraps the error and names the
file. -/
theorem calculate_file_md5_spec (file_path : String)
    (contents : Except String (List Nat)) :
    calculate_file_md5 file_path contents =
      (match contents with
       | .ok bytes => .ok (md5Hex bytes)
       | .error e =>
         .error ("Error calculating MD5 hash for " ++ file_path ++ ": " ++ e)) ∧
    ∀ bytes : List Nat, (md5Hex bytes).length = 32 := by
  refine ⟨?_, length_md5Hex⟩
  cases contents with
  | error e => rfl
  | ok bytes =>
    have h1 : ((chunksOf 4096 bytes).foldl HashMD5.update ⟨[]⟩).fed = bytes := by
      rw [foldl_update_fed, List.nil_append, chunksOf_flatten 4096 (by omega)]
    simp only [calculate_file_md5, HashMD5.hexdigest, h1]

/-! ## FLAC files as `mutagen.flac.FLAC` exposes them

`sample_rate`, `channels`, `bits_per_sample` and `md5_signature` are
the STREAMINFO fields the scripts read; the rest of the file (audio
frames, other metadata) is abstracted as opaque bytes. -/

structure FlacFile where
  sample_rate : Nat
  channels : Nat
  bits_per_sample : Nat
  md5_signature : Nat
  audio : List Nat
deriving Repr, DecidableEq

/-! ### Python `f"{n:032x}"` -/

def natToHexRevAux : Nat → Nat → List Char
  | 0, _ => []
  | fuel + 1, n =>
    if n = 0 then [] else hexDigitChar (n % 16) :: natToHexRevAux fuel (n / 16)

/-- Lowercase hex digits of `n`, most significant first (`['0']` for 0). -/
def natToHex (n : Nat) : List Char :=
  if n = 0 then ['0'] else (natToHexRevAux n n).reverse

/-- Python `f"{n:032x}"`: lowercase hex, left-padded with zeros to at
least 32 characters. -/
def pyHex032 (n : Nat) : String :=
  ⟨List.replicate (32 - (natToHex n).length) '0' ++ natToHex n⟩

theorem natToHexRevAux_length_le (fuel n k : Nat) (h : n < 16 ^ k) :
    (natToHexRevAux fuel n).length ≤ k := by
  induction fuel generalizing n k with
  | zero => simp [natToHexRevAux]
  | succ fuel ih =>
    by_cases hn : n = 0
    · simp [natToHexRevAux, hn]
    · have hk : k ≠ 0 := by
        rintro rfl
        rw [pow_zero] at h
        omega
      obtain ⟨j, rfl⟩ := Nat.exists_eq_succ_of_ne_zero hk
      simp only [natToHexRevAux, if_neg hn, List.length_cons]
      have hdiv : n / 16 < 16 ^ j := by
        rw [Nat.div_lt_iff_lt_mul (by norm_num)]
        calc n < 16 ^ (j + 1) := h
          _ = 16 ^ j * 16 := by ring
      exact Nat.succ_le_succ (ih (n / 16) j hdiv)

theorem natToHex_length_le (n : Nat) (h : n < 2 ^ 128) :
    (natToHex n).length ≤ 32 := by
  unfold natToHex
  by_cases hn : n = 0
  · simp [hn]
  · rw [if_neg hn, List.length_reverse]
    have h16 : (16 : Nat) ^ 32 = 2 ^ 128 := by norm_num
    exact natToHexRevAux_length_le n n 32 (by omega)

theorem length_mk_list (cs : List Char) : (String.mk cs).length = cs.length := rfl

theorem length_pyHex032 (n : Nat) (h : n < 2 ^ 128) : (pyHex032 n).length = 32 := by
  have hle := natToHex_length_le n h
  have hlen : (pyHex032 n).length =
      (32 - (natToHex n).length) + (natToHex n).length := by
    rw [pyHex032, length_mk_list, List.length_append, List.length_replicate]
  omega

/-! ### `bytes.fromhex` and `int.from_bytes(..., 'big')` -/

def hexVal (c : Char) : Option Nat :=
  if 48 ≤ c.toNat ∧ c.toNat ≤ 57 then some (c.toNat - 48)
  else if 97 ≤ c.toNat ∧ c.toNat ≤ 102 then some (c.toNat - 87)
  else if 65 ≤ c.toNat ∧ c.toNat ≤ 70 then some (c.toNat - 55)
  else none

/-- `bytes.fromhex`: pairs of hex digits, ASCII spaces allowed between
pairs; anything else raises `ValueError`. -/
def bytesFromHex : List Char → Except String (List Nat)
  | [] => .ok []
  | ' ' :: rest => bytesFromHex rest
  | c1 :: c2 :: rest =>
    match hexVal c1, hexVal c2 with
    | some hi, some lo => (bytesFromHex rest).map fun bs => (16 * hi + lo) :: bs
    | _, _ => .error "ValueError: non-hexadecimal number found"
  | [_] => .error "ValueError: non-hexadecimal number found"

def intFromBytesBE (bs : List Nat) : Nat := bs.foldl (fun acc b => 256 * acc + b) 0

/-! ## `set_flac_md5_signature` (utils/utils.py lines 154-177)

The on-disk state at `file_path` is `disk`: `some f` when the path
holds a FLAC file that `mutagen` can open, `none` when `FLAC(path)`
raises.  The in-memory mutation plus `flac_file.save()` is collapsed
into the returned disk state; every caught exception ends in the
`(false, unchanged disk)` outcome, mirroring the printed warning and
`return False`. -/

def set_flac_md5_signature (disk : Option FlacFile) (md5_hash : String) :
    Bool × Option FlacFile :=
  match disk with
  | none => (false, none)
  | some flac_file =>
    if md5_hash.length = 32 then
      match bytesFromHex md5_hash.toList with
      | .ok md5_bytes =>
        (true, some { flac_file with md5_signature := intFromBytesBE md5_bytes })
      | .error _ => (false, some flac_file)
    else
      (false, some flac_file)

/-- C2: for every file state and every checksum string whose length is
not 32, `set_flac_md5_signature` reports failure (`False`) and the FLAC
file on disk is left unmodified — no save is performed. -/
theorem set_flac_md5_signature_invalid_length (disk : Option FlacFile)
    (md5_hash : String) (h : md5_hash.length ≠ 32) :
    (set_flac_md5_signature disk md5_hash).1 = false ∧
    (set_flac_md5_signature disk md5_hash).2 = disk := by
  cases disk with
  | none => exact ⟨rfl, rfl⟩
  | some f => simp [set_flac_md5_signature, h]

theorem set_flac_md5_signature_invalid_length_witness :
    ("abcd".length ≠ 32) ∧
    ((set_flac_md5_signature (some ⟨44100, 2, 16, 0, [7, 7]⟩) "abcd").1 = false ∧
     (set_flac_md5_signature (some ⟨44100, 2, 16, 0, [7, 7]⟩) "abcd").2 =
       some ⟨44100, 2, 16, 0, [7, 7]⟩) :=
  ⟨by decide, set_flac_md5_signature_invalid_length _ _ (by decide)⟩

/-! ## The temp-file cleanup loop shared by the checksum utilities

`for i in range(3): try: if os.path.exists(temp_path): os.unlink(temp_path); break
except PermissionError: time.sleep(0.1)` — `fails i` tells whether the
`i`-th unlink attempt hits a `PermissionError` (a transient file lock).
Returns the number of loop iterations entered and whether the file was
actually deleted. -/

def cleanupTemp (tempExists : Bool) (fails : Nat → Bool) : Nat × Bool :=
  if !tempExists then (1, false)
  else if !fails 0 then (1, true)
  else if !fails 1 then (2, true)
  else if !fails 2 then (3, true)
  else (3, false)

/-! ## `fix_flac_md5_signature` (utils/utils.py lines 95-152)

Oracle fields: `disk` is the FLAC file at `file_path` (`none` when
`FLAC(file_path)` raises with message `openError`); `reencoded` is the
combined outcome of the `ffmpeg` re-encode subprocess plus reading the
temporary FLAC back (`error` when either raises); `unlinkFails` drives
the cleanup loop.  The result carries the returned value or exception,
the final disk state at `file_path`, and a trace of the external
effects (`ffmpegCalls`, `unlinkAttempts`). -/

structure FixEnv where
  disk : Option FlacFile
  openError : String
  reencoded : Except String FlacFile
  unlinkFails : Nat → Bool

structure FixTrace where
  ffmpegCalls : Nat
  unlinkAttempts : Nat
deriving Repr, DecidableEq

def fixWrap (file_path e : String) : String :=
  "Could not fix FLAC MD5 signature for " ++ file_path ++ ": " ++ e

def fix_flac_md5_signature (file_path : String) (env : FixEnv) :
    Except String String × Option FlacFile × FixTrace :=
  match env.disk with
  | none => (.error (fixWrap file_path env.openError), none, ⟨0, 0⟩)
  | some original_flac =>
    if original_flac.md5_signature ≠ 0 then
      (.ok (pyHex032 original_flac.md5_signature), some original_flac, ⟨0, 0⟩)
    else
      match env.reencoded with
      | .error e =>
        let cl := cleanupTemp true env.unlinkFails
        (.error (fixWrap file_path e), some original_flac, ⟨1, cl.1⟩)
      | .ok temp_flac =>
        let cl := cleanupTemp true env.unlinkFails
        if temp_flac.md5_signature ≠ 0 then
          let md5_hex := pyHex032 temp_flac.md5_signature
          let setRes := set_flac_md5_signature (some original_flac) md5_hex
          if setRes.1 then (.ok md5_hex, setRes.2, ⟨1, cl.1⟩)
          else
            (.error (fixWrap file_path "Could not set MD5 signature in original file"),
             setRes.2, ⟨1, cl.1⟩)
        else
          (.error (fixWrap file_path "Re-encoded FLAC also has no MD5 signature"),
           some original_flac, ⟨1, cl.1⟩)

/-- C3: for every FLAC file whose stored STREAMINFO checksum is nonzero
(a STREAMINFO checksum is a 16-byte field, hence `< 2^128`),
`fix_flac_md5_signature` returns that checksum formatted `f"{sig:032x}"`
— a 32-character hex string — and returns early: no `ffmpeg` re-encode,
no cleanup loop, and the file on disk is byte-for-byte unchanged. -/
theorem fix_flac_md5_signature_nonzero (file_path : String) (env : FixEnv)
    (flac : FlacFile) (hopen : env.disk = some flac)
    (hnz : flac.md5_signature ≠ 0) (hlt : flac.md5_signature < 2 ^ 128) :
    (fix_flac_md5_signature file_path env).1 = .ok (pyHex032 flac.md5_signature) ∧
    (pyHex032 flac.md5_signature).length = 32 ∧
    (fix_flac_md5_signature file_path env).2.1 = env.disk ∧
    (fix_flac_md5_signature file_path env).2.2 = ⟨0, 0⟩ := by
  have h1 : fix_flac_md5_signature file_path env =
      (.ok (pyHex032 flac.md5_signature), some flac, ⟨0, 0⟩) := by
    simp only [fix_flac_md5_signature, hopen, if_pos hnz]
  refine ⟨?_, length_pyHex032 _ hlt, ?_, ?_⟩
  · rw [h1]
  · rw [h1, hopen]
  · rw [h1]

def c3WitEnv : FixEnv := ⟨some ⟨44100, 2, 16, 5, [9]⟩, "", .error "", fun _ => false⟩

theorem fix_flac_md5_signature_nonzero_witness :
    (c3WitEnv.disk = some ⟨44100, 2, 16, 5, [9]⟩) ∧
    ((5 : Nat) ≠ 0) ∧ ((5 : Nat) < 2 ^ 128) ∧
    ((fix_flac_md5_signature "f.flac" c3WitEnv).1 = .ok (pyHex032 5) ∧
     (pyHex032 5).length = 32 ∧
     (fix_flac_md5_signature "f.flac" c3WitEnv).2.1 = c3WitEnv.disk ∧
     (fix_flac_md5_signature "f.flac" c3WitEnv).2.2 = ⟨0, 0⟩) :=
  ⟨rfl, by decide, by norm_num,
   fix_flac_md5_signature_nonzero "f.flac" c3WitEnv ⟨44100, 2, 16, 5, [9]⟩ rfl
     (by decide) (by norm_num)⟩

/-! ## `calculate_unencoded_md5` (utils/utils.py lines 26-93)

Oracle fields: `flacOpen` is the outcome of `FLAC(file_path)`;
`ffmpegRun` the outcome of the `subprocess.run(..., check=True)`
transcode; `rawRead` the outcome of reading the temporary raw-sample
file; `unlinkFails` drives the cleanup loop.  The trace records
checksum writes (the function performs none — it has no call that
stores an MD5 anywhere), whether the temporary file was created, and
what the cleanup loop did. -/

structure UnencodedEnv where
  flacOpen : Except String FlacFile
  ffmpegRun : Except String Unit
  rawRead : Except String (List Nat)
  unlinkFails : Nat → Bool

structure UnencodedTrace where
  md5SignatureWrites : Nat
  tempCreated : Bool
  unlinkAttempts : Nat
  tempDeleted : Bool
deriving Repr, DecidableEq

def unencWrap (file_path e : String) : String :=
  "Could not calculate proper unencoded MD5 for " ++ file_path ++ ": " ++ e

def calculate_unencoded_md5 (file_path : String) (env : UnencodedEnv) :
    Except String String × UnencodedTrace :=
  match env.flacOpen with
  | .error e => (.error (unencWrap file_path e), ⟨0, false, 0, false⟩)
  | .ok flac_file =>
    -- tempfile.NamedTemporaryFile(delete=False) has created temp_path here
    if flac_file.bits_per_sample = 16 ∨ flac_file.bits_per_sample = 24 ∨
        flac_file.bits_per_sample = 32 then
      match env.ffmpegRun with
      | .error e =>
        let cl := cleanupTemp true env.unlinkFails
        (.error (unencWrap file_path e), ⟨0, true, cl.1, cl.2⟩)
      | .ok _ =>
        match env.rawRead with
        | .error e =>
          let cl := cleanupTemp true env.unlinkFails
          (.error (unencWrap file_path e), ⟨0, true, cl.1, cl.2⟩)
        | .ok raw =>
          let hash_md5 := (chunksOf 4096 raw).foldl HashMD5.update ⟨[]⟩
          let cl := cleanupTemp true env.unlinkFails
          (.ok hash_md5.hexdigest, ⟨0, true, cl.1, cl.2⟩)
    else
      let cl := cleanupTemp true env.unlinkFails
      (.error (unencWrap file_path
          ("Unsupported bit depth: " ++ toString flac_file.bits_per_sample)),
        ⟨0, true, cl.1, cl.2⟩)

theorem cleanupTemp_attempts_le (te : Bool) (fails : Nat → Bool) :
    (cleanupTemp te fails).1 ≤ 3 := by
  cases te <;> cases h0 : fails 0 <;> cases h1 : fails 1 <;> cases h2 : fails 2 <;>
    simp_all [cleanupTemp]

theorem cleanupTemp_deletes (fails : Nat → Bool)
    (h : fails 0 = false ∨ fails 1 = false ∨ fails 2 = false) :
    (cleanupTemp true fails).2 = true := by
  cases h0 : fails 0 <;> cases h1 : fails 1 <;> cases h2 : fails 2 <;>
    simp_all [cleanupTemp]

def c1CexEnv : UnencodedEnv := ⟨.ok ⟨44100, 2, 17, 0, []⟩, .ok (), .ok [], fun _ => true⟩

/-- C1 counterexample: on a FLAC file with unsupported bit depth 17
(a failure, so the function raises) while every unlink attempt hits a
`PermissionError` (a persistent file lock), the cleanup loop gives up
after its 3 attempts and the temporary raw-sample file is NOT removed —
contradicting the claim that it is removed before raising. -/
theorem calculate_unencoded_md5_c1_cex :
    (calculate_unencoded_md5 "f.flac" c1CexEnv).1.isOk = false ∧
    (calculate_unencoded_md5 "f.flac" c1CexEnv).2.tempCreated = true ∧
    (calculate_unencoded_md5 "f.flac" c1CexEnv).2.unlinkAttempts = 3 ∧
    (calculate_unencoded_md5 "f.flac" c1CexEnv).2.tempDeleted = false :=
  ⟨rfl, rfl, rfl, rfl⟩

/-- C1 (amended): whenever `calculate_unencoded_md5` encounters any
failure it raises an exception wrapping the cause and naming the file,
and it never writes or sets any checksum value anywhere; before
raising, deletion of the temporary raw-sample file (when it was
created) is attempted at most 3 times, and the file is removed provided
some of those attempts is not blocked by a `PermissionError`. -/
theorem calculate_unencoded_md5_fail_closed (file_path : String) (env : UnencodedEnv)
    (hfail : (calculate_unencoded_md5 file_path env).1.isOk = false) :
    (∃ e, (calculate_unencoded_md5 file_path env).1 = .error (unencWrap file_path e)) ∧
    (calculate_unencoded_md5 file_path env).2.md5SignatureWrites = 0 ∧
    (calculate_unencoded_md5 file_path env).2.unlinkAttempts ≤ 3 ∧
    ((calculate_unencoded_md5 file_path env).2.tempCreated = true →
      (env.unlinkFails 0 = false ∨ env.unlinkFails 1 = false ∨ env.unlinkFails 2 = false) →
      (calculate_unencoded_md5 file_path env).2.tempDeleted = true) := by
  obtain ⟨fo, fr, rr, uf⟩ := env
  cases fo with
  | error e =>
    exact ⟨⟨e, rfl⟩, rfl, Nat.zero_le 3,
      fun hc => by exact absurd hc (by simp [calculate_unencoded_md5])⟩
  | ok flac =>
    by_cases hb : flac.bits_per_sample = 16 ∨ flac.bits_per_sample = 24 ∨
        flac.bits_per_sample = 32
    · cases fr with
      | error e =>
        have hres : calculate_unencoded_md5 file_path ⟨.ok flac, .error e, rr, uf⟩ =
            (.error (unencWrap file_path e),
             ⟨0, true, (cleanupTemp true uf).1, (cleanupTemp true uf).2⟩) := by
          simp only [calculate_unencoded_md5, if_pos hb]
        rw [hres]
        exact ⟨⟨e, rfl⟩, rfl, cleanupTemp_attempts_le true uf,
          fun _ h => cleanupTemp_deletes uf h⟩
      | ok u =>
        cases rr with
        | error e =>
          have hres : calculate_unencoded_md5 file_path ⟨.ok flac, .ok u, .error e, uf⟩ =
              (.error (unencWrap file_path e),
               ⟨0, true, (cleanupTemp true uf).1, (cleanupTemp true uf).2⟩) := by
            simp only [calculate_unencoded_md5, if_pos hb]
          rw [hres]
          exact ⟨⟨e, rfl⟩, rfl, cleanupTemp_attempts_le true uf,
            fun _ h => cleanupTemp_deletes uf h⟩
        | ok raw =>
          exfalso
          simp only [calculate_unencoded_md5, if_pos hb] at hfail
          exact Bool.noConfusion hfail
    · have hres : calculate_unencoded_md5 file_path ⟨.ok flac, fr, rr, uf⟩ =
          (.error (unencWrap file_path
             ("Unsupported bit depth: " ++ toString flac.bits_per_sample)),
           ⟨0, true, (cleanupTemp true uf).1, (cleanupTemp true uf).2⟩) := by
        simp only [calculate_unencoded_md5, if_neg hb]
      rw [hres]
      exact ⟨⟨"Unsupported bit depth: " ++ toString flac.bits_per_sample, rfl⟩, rfl,
        cleanupTemp_attempts_le true uf, fun _ h => cleanupTemp_deletes uf h⟩

def c1WitEnv : UnencodedEnv := ⟨.ok ⟨44100, 2, 17, 0, []⟩, .ok (), .ok [], fun _ => false⟩

theorem calculate_unencoded_md5_fail_closed_witness :
    ((calculate_unencoded_md5 "f.flac" c1WitEnv).1.isOk = false) ∧
    ((∃ e, (calculate_unencoded_md5 "f.flac" c1WitEnv).1 = .error (unencWrap "f.flac" e)) ∧
     (calculate_unencoded_md5 "f.flac" c1WitEnv).2.md5SignatureWrites = 0 ∧
     (calculate_unencoded_md5 "f.flac" c1WitEnv).2.unlinkAttempts ≤ 3 ∧
     ((calculate_unencoded_md5 "f.flac" c1WitEnv).2.tempCreated = true →
       (c1WitEnv.unlinkFails 0 = false ∨ c1WitEnv.unlinkFails 1 = false ∨
        c1WitEnv.unlinkFails 2 = false) →
       (calculate_unencoded_md5 "f.flac" c1WitEnv).2.tempDeleted = true)) :=
  ⟨rfl, calculate_unencoded_md5_fail_closed "f.flac" c1WitEnv rfl⟩

/-! ## `download_file` (utils/utils.py lines 207-253)

The file system is an association list from path to byte content.
Oracle fields: `chunks` is what `r.iter_content(chunk_size=1024)`
yields; `contentLength` the optional `content-length` header;
`interruptAtChunk = some i` means a `KeyboardInterrupt` fires just
before writing chunk `i` (so chunks `0..i-1` are on disk);
`interruptInArtwork` means it fires during the image post-processing;
`resizedBytes` is what `PIL` writes back when the resize completes.
`requests` counts `r_session.get` calls. -/

def listSet (w : List (String × α)) (k : String) (v : α) : List (String × α) :=
  if (w.lookup k).isSome then w.map (fun q => if q.1 = k then (k, v) else q)
  else w ++ [(k, v)]

def listRemove (w : List (String × α)) (k : String) : List (String × α) :=
  w.filter (fun q => q.1 ≠ k)

structure ArtworkSettings where
  should_resize : Bool
  resolution : Nat
  fileFormat : String
  compression : String
deriving Repr, DecidableEq

structure DownloadEnv where
  chunks : List (List Nat)
  contentLength : Option Nat
  interruptAtChunk : Option Nat
  interruptInArtwork : Bool
  resizedBytes : List Nat

inductive DownloadOutcome where
  | returnedNone
  | completed
  | interrupted
deriving Repr, DecidableEq

structure DownloadResult where
  outcome : DownloadOutcome
  files : List (String × List Nat)
  requests : Nat
deriving Repr, DecidableEq

def download_file (file_location : String) (world : List (String × List Nat))
    (artwork_settings : Option ArtworkSettings) (env : DownloadEnv) : DownloadResult :=
  if (world.lookup file_location).isSome then
    ⟨.returnedNone, world, 0⟩
  else
    match env.interruptAtChunk with
    | some i =>
      -- KeyboardInterrupt while streaming to disk: the handler sees the
      -- partially written file, deletes it and re-raises
      let w1 := listSet world file_location (env.chunks.take i).flatten
      ⟨.interrupted, listRemove w1 file_location, 1⟩
    | none =>
      let w1 := listSet world file_location env.chunks.flatten
      match artwork_settings with
      | some s =>
        if s.should_resize then
          if env.interruptInArtwork then
            ⟨.interrupted, listRemove w1 file_location, 1⟩
          else
            ⟨.completed, listSet w1 file_location env.resizedBytes, 1⟩
        else ⟨.completed, w1, 1⟩
      | none => ⟨.completed, w1, 1⟩

/-- C5: if a regular file already exists at the destination,
`download_file` returns `None` immediately: no network request, the
file system is untouched (in particular the existing content is neither
overwritten nor inspected). -/
theorem download_file_existing_noop (file_location : String)
    (world : List (String × List Nat)) (artwork_settings : Option ArtworkSettings)
    (env : DownloadEnv) (h : (world.lookup file_location).isSome = true) :
    download_file file_location world artwork_settings env =
      ⟨.returnedNone, world, 0⟩ := by
  rw [download_file, if_pos h]

theorem download_file_existing_noop_witness :
    (([("a/b.jpg", [1, 2, 3])].lookup "a/b.jpg").isSome = true) ∧
    download_file "a/b.jpg" [("a/b.jpg", [1, 2, 3])] none ⟨[[4]], none, none, false, []⟩ =
      ⟨.returnedNone, [("a/b.jpg", [1, 2, 3])], 0⟩ :=
  ⟨by decide, download_file_existing_noop "a/b.jpg" _ none _ (by decide)⟩

theorem lookup_listRemove (w : List (String × α)) (k : String) :
    (listRemove w k).lookup k = none := by
  induction w with
  | nil => rfl
  | cons q t ih =>
    obtain ⟨qk, qv⟩ := q
    by_cases h : qk = k
    · have h1 : listRemove ((qk, qv) :: t) k = listRemove t k := by
        simp [listRemove, List.filter_cons, h]
      rw [h1]
      exact ih
    · have h2 : listRemove ((qk, qv) :: t) k = (qk, qv) :: listRemove t k := by
        simp [listRemove, List.filter_cons, h]
      have h3 : (k == qk) = false := beq_eq_false_iff_ne.mpr (Ne.symm h)
      rw [h2]
      simp only [List.lookup, h3]
      exact ih

/-- C6: if `download_file` is interrupted by a `KeyboardInterrupt`
while writing or post-processing the destination file, the partially
written file is deleted before the interruption propagates: afterwards
no file exists at the destination. -/
theorem download_file_interrupt_cleans_up (file_location : String)
    (world : List (String × List Nat)) (artwork_settings : Option ArtworkSettings)
    (env : DownloadEnv)
    (hint : (download_file file_location world artwork_settings env).outcome =
      .interrupted) :
    (download_file file_location world artwork_settings env).files.lookup
      file_location = none := by
  obtain ⟨chunks, clen, iac, iia, rz⟩ := env
  by_cases hex : (world.lookup file_location).isSome = true
  · rw [download_file, if_pos hex] at hint
    exact absurd hint (by simp)
  · rw [download_file, if_neg hex] at hint ⊢
    cases iac with
    | some i => exact lookup_listRemove _ _
    | none =>
      cases artwork_settings with
      | none => exact DownloadOutcome.noConfusion hint
      | some s =>
        obtain ⟨sr, sres, sfmt, scomp⟩ := s
        cases sr with
        | false => exact DownloadOutcome.noConfusion hint
        | true =>
          cases iia with
          | true => exact lookup_listRemove _ _
          | false => exact DownloadOutcome.noConfusion hint

theorem download_file_interrupt_cleans_up_witness :
    ((download_file "d/x.bin" [] none ⟨[[1], [2]], some 2, some 1, false, []⟩).outcome =
      .interrupted) ∧
    (download_file "d/x.bin" [] none
        ⟨[[1], [2]], some 2, some 1, false, []⟩).files.lookup "d/x.bin" = none :=
  ⟨by decide, download_file_interrupt_cleans_up "d/x.bin" [] none _ (by decide)⟩

/-! ## The temporary settings store (utils/utils.py lines 271-311)

The pickled blob is a tree of Python values: `None`, strings, integers
and string-keyed dicts.  `pickle.load` / `pickle.dump` move the whole
blob between disk and memory unchanged, so the store is modelled by
the blob value itself; in-place mutation of a sub-dict through an
alias (`session[...] = ...` followed by `pickle.dump` of the whole
blob) is modelled by rebuilding the blob along the navigation path.
Python truthiness: `None`, `""`, `0` and `{}` are falsy. -/

inductive PyVal where
  | pyNone
  | pyStr (s : String)
  | pyInt (n : Int)
  | pyDict (entries : List (String × PyVal))

def PyVal.truthy : PyVal → Bool
  | .pyNone => false
  | .pyStr s => !s.isEmpty
  | .pyInt n => n != 0
  | .pyDict d => !d.isEmpty

/-- Truthiness of an optional-string argument (`None` and `""` falsy). -/
def optStrTruthy : Option String → Bool
  | none => false
  | some s => !s.isEmpty

/-- `v[k]`: dict subscription; `KeyError` when absent, `TypeError` on
non-dicts. -/
def pySubscript (v : PyVal) (k : String) : Except String PyVal :=
  match v with
  | .pyDict d =>
    match d.lookup k with
    | some x => .ok x
    | none => .error ("KeyError: " ++ k)
  | _ => .error "TypeError: object is not subscriptable"

/-- `k in v`: dict key membership, substring test on strings,
`TypeError` otherwise. -/
def pyContains (v : PyVal) (k : String) : Except String Bool :=
  match v with
  | .pyDict d => .ok (d.lookup k).isSome
  | .pyStr s => .ok (decide (List.IsInfix k.toList s.toList))
  | _ => .error "TypeError: argument is not iterable"

/-- `v[k] = x` on a dict (Python updates the slot in place or appends
a new key); `TypeError` on non-dicts. -/
def pyDictSet (v : PyVal) (k : String) (x : PyVal) : Except String PyVal :=
  match v with
  | .pyDict d => .ok (.pyDict (listSet d k x))
  | _ => .error "TypeError: object does not support item assignment"

/-- `temporary_settings['modules'][module] if module in
temporary_settings['modules'] else None`. -/
def getModuleSettings (store : PyVal) (module : String) :
    Except String (Option PyVal) := do
  let modules ← pySubscript store "modules"
  let mem ← pyContains modules module
  if mem then do
    let ms ← pySubscript modules module
    pure (some ms)
  else
    pure none

/-- The `session` both functions navigate to: `module_settings` itself
in `global_mode`, else `module_settings['sessions'][module_settings['selected']]`;
`None` when the module is absent or its settings are falsy. -/
def getSession (store : PyVal) (module : String) (global_mode : Bool) :
    Except String PyVal := do
  let ms? ← getModuleSettings store module
  match ms? with
  | none => pure .pyNone
  | some ms =>
    if ms.truthy then
      if global_mode then pure ms
      else do
        let sessions ← pySubscript ms "sessions"
        let selected ← pySubscript ms "selected"
        match selected with
        | .pyStr key => pySubscript sessions key
        | _ => .error "TypeError: unhashable session key"
    else pure .pyNone

def read_temporary_setting (store : PyVal) (module : String)
    (root_setting : Option String) (setting : Option String) (global_mode : Bool) :
    Except String PyVal := do
  let session ← getSession store module global_mode
  if session.truthy && optStrTruthy root_setting then
    match root_setting with
    | some rs =>
      if optStrTruthy setting then
        match setting with
        | some st => do
          let mem1 ← pyContains session rs
          if mem1 then do
            let sub ← pySubscript session rs
            let mem2 ← pyContains sub st
            if mem2 then do
              let sub2 ← pySubscript session rs
              pySubscript sub2 st
            else pure .pyNone
          else pure .pyNone
        | none => pure .pyNone
      else do
        let mem ← pyContains session rs
        if mem then pySubscript session rs else pure .pyNone
    | none => pure .pyNone
  else if optStrTruthy root_setting && !session.truthy then
    .error "Module does not use temporary settings"
  else
    pure session

def set_temporary_setting (store : PyVal) (module : String) (root_setting : String)
    (setting : Option String) (value : PyVal) (global_mode : Bool) :
    Except String PyVal := do
  let session ← getSession store module global_mode
  if !session.truthy then
    .error "Module does not use temporary settings"
  else do
    let newSession ←
      if optStrTruthy setting then
        match setting with
        | some st => do
          let sub ← pySubscript session root_setting
          let newSub ← pyDictSet sub st value
          pyDictSet session root_setting newSub
        | none => pure session
      else
        pyDictSet session root_setting value
    -- the mutation happened through an alias into the blob; rebuild the
    -- blob along the same navigation path, then `pickle.dump` it whole
    let modules ← pySubscript store "modules"
    if global_mode then do
      let modules2 ← pyDictSet modules module newSession
      pyDictSet store "modules" modules2
    else do
      let ms ← pySubscript modules module
      let selected ← pySubscript ms "selected"
      match selected with
      | .pyStr key => do
        let sessions ← pySubscript ms "sessions"
        let sessions2 ← pyDictSet sessions key newSession
        let ms2 ← pyDictSet ms "sessions" sessions2
        let modules2 ← pyDictSet modules module ms2
        pyDictSet store "modules" modules2
      | _ => .error "TypeError: unhashable session key"

/-! ### Association-list update lemmas (Python dict assignment) -/

theorem isEmpty_false_of_ne_nil {α : Type} {l : List α} (h : l ≠ []) :
    l.isEmpty = false := by
  cases l with
  | nil => exact absurd rfl h
  | cons a t => rfl

theorem lookup_map_replace {α : Type} (d : List (String × α)) (k : String) (v : α) :
    (d.map (fun q => if q.1 = k then (k, v) else q)).lookup k =
      if (d.lookup k).isSome then some v else none := by
  induction d with
  | nil => rfl
  | cons q t ih =>
    obtain ⟨qk, qv⟩ := q
    rw [List.map_cons]
    by_cases h : qk = k
    · subst h
      have hhead : (if (qk, qv).1 = qk then (qk, v) else (qk, qv)) = (qk, v) := if_pos rfl
      rw [hhead]
      simp only [List.lookup, beq_self_eq_true]
      rfl
    · have hhead : (if (qk, qv).1 = k then (k, v) else (qk, qv)) = (qk, qv) := if_neg h
      have hbeq : (k == qk) = false := beq_eq_false_iff_ne.mpr (Ne.symm h)
      rw [hhead]
      simp only [List.lookup, hbeq]
      exact ih

theorem lookup_map_replace_other {α : Type} (d : List (String × α)) (k k2 : String)
    (v : α) (h : k2 ≠ k) :
    (d.map (fun q => if q.1 = k then (k, v) else q)).lookup k2 = d.lookup k2 := by
  induction d with
  | nil => rfl
  | cons q t ih =>
    obtain ⟨qk, qv⟩ := q
    rw [List.map_cons]
    by_cases hqk : qk = k
    · subst hqk
      have hhead : (if (qk, qv).1 = qk then (qk, v) else (qk, qv)) = (qk, v) := if_pos rfl
      have hbeq : (k2 == qk) = false := beq_eq_false_iff_ne.mpr h
      rw [hhead]
      simp only [List.lookup, hbeq]
      exact ih
    · have hhead : (if (qk, qv).1 = k then (k, v) else (qk, qv)) = (qk, qv) := if_neg hqk
      rw [hhead]
      simp only [List.lookup]
      cases hbeq : (k2 == qk) with
      | true => rfl
      | false => exact ih

theorem lookup_append_single_self {α : Type} (d : List (String × α)) (k : String)
    (v : α) (h : d.lookup k = none) : (d ++ [(k, v)]).lookup k = some v := by
  induction d with
  | nil => simp [List.lookup]
  | cons q t ih =>
    obtain ⟨qk, qv⟩ := q
    simp only [List.lookup] at h
    cases hbeq : (k == qk) with
    | true => rw [hbeq] at h; exact absurd h (by simp)
    | false =>
      rw [hbeq] at h
      simp only [List.cons_append, List.lookup, hbeq]
      exact ih h

theorem lookup_append_single_other {α : Type} (d : List (String × α)) (k k2 : String)
    (v : α) (h : k2 ≠ k) : (d ++ [(k, v)]).lookup k2 = d.lookup k2 := by
  induction d with
  | nil => simp [List.lookup, beq_eq_false_iff_ne.mpr h]
  | cons q t ih =>
    obtain ⟨qk, qv⟩ := q
    simp only [List.cons_append, List.lookup]
    cases hbeq : (k2 == qk) with
    | true => rfl
    | false => exact ih

theorem lookup_listSet_self {α : Type} (d : List (String × α)) (k : String) (v : α) :
    (listSet d k v).lookup k = some v := by
  rw [listSet]
  by_cases h : (d.lookup k).isSome = true
  · rw [if_pos h, lookup_map_replace, if_pos h]
  · rw [if_neg h]
    refine lookup_append_single_self d k v ?_
    cases hl : d.lookup k with
    | none => rfl
    | some x => rw [hl] at h; exact absurd rfl h

theorem lookup_listSet_other {α : Type} (d : List (String × α)) (k k2 : String)
    (v : α) (h : k2 ≠ k) : (listSet d k v).lookup k2 = d.lookup k2 := by
  rw [listSet]
  by_cases hs : (d.lookup k).isSome = true
  · rw [if_pos hs]
    exact lookup_map_replace_other d k k2 v h
  · rw [if_neg hs]
    exact lookup_append_single_other d k k2 v h

theorem listSet_isEmpty_false {α : Type} (d : List (String × α)) (k : String) (v : α) :
    (listSet d k v).isEmpty = false := by
  rw [listSet]
  by_cases h : (d.lookup k).isSome = true
  · rw [if_pos h]
    cases d with
    | nil => simp [List.lookup] at h
    | cons q t => rfl
  · rw [if_neg h]
    cases d <;> rfl

theorem isEmpty_false_of_ne_empty (s : String) (h : s ≠ "") : s.isEmpty = false := by
  cases hb : s.isEmpty with
  | false => rfl
  | true => exact absurd ((String.isEmpty_iff s).mp hb) h

/-- The claim's "module has no session state": navigating to the
module's selected session either raises or reaches a falsy session. -/
def moduleSessionMissing (store : PyVal) (module : String) : Bool :=
  match getSession store module false with
  | .ok s => !s.truthy
  | .error _ => true

def c8CexStore : PyVal := .pyDict [("modules", .pyDict [])]

/-- C8 counterexample: with module "M" absent from the store,
`read_temporary_setting` called with no `root_setting` returns the
value `None` instead of raising — so "both functions raise an
exception rather than returning a value" fails as stated. -/
theorem settings_no_session_c8_cex :
    moduleSessionMissing c8CexStore "M" = true ∧
    read_temporary_setting c8CexStore "M" none none false = .ok .pyNone :=
  ⟨rfl, rfl⟩

/-- C8 (amended): when the named module has no session state (module
absent, or navigation to its selected session raises, or the session
is falsy), `set_temporary_setting` always raises — for every
`root_setting`, including the empty string, since `if not session:
raise` fires before `root_setting` is consulted — and
`read_temporary_setting` raises whenever a (nonempty) `root_setting`
is requested; with no `root_setting` the read does not raise but
returns the (falsy) session value — `None` — whenever navigation
itself did not raise. -/
theorem settings_no_session_raises (store : PyVal) (module root_setting : String)
    (setting : Option String) (value : PyVal)
    (h : moduleSessionMissing store module = true) :
    (∃ e, set_temporary_setting store module root_setting setting value false =
      .error e) ∧
    (root_setting ≠ "" →
      ∃ e, read_temporary_setting store module (some root_setting) setting false =
        .error e) ∧
    (∀ s, getSession store module false = .ok s →
      read_temporary_setting store module none setting false = .ok s ∧
        s.truthy = false) := by
  cases hg : getSession store module false with
  | error e =>
    refine ⟨⟨e, by simp [set_temporary_setting, hg, Bind.bind, Except.bind]⟩,
      fun _ => ⟨e, by simp [read_temporary_setting, hg, Bind.bind, Except.bind]⟩,
      ?_⟩
    intro s hs
    exact absurd hs (by simp)
  | ok s =>
    have hs : s.truthy = false := by
      unfold moduleSessionMissing at h
      rw [hg] at h
      simpa using h
    refine ⟨?_, ?_, ?_⟩
    · refine ⟨"Module does not use temporary settings", ?_⟩
      simp [set_temporary_setting, hg, hs, Bind.bind, Except.bind, Pure.pure,
        Except.pure]
    · intro hroot
      have hrE : root_setting.isEmpty = false := isEmpty_false_of_ne_empty _ hroot
      refine ⟨"Module does not use temporary settings", ?_⟩
      simp [read_temporary_setting, hg, hs, optStrTruthy, hrE, Bind.bind,
        Except.bind, Pure.pure, Except.pure]
    · intro s0 hs0
      cases hs0
      constructor
      · simp [read_temporary_setting, hg, hs, optStrTruthy, Bind.bind,
          Except.bind, Pure.pure, Except.pure]
      · exact hs

theorem settings_no_session_raises_witness :
    (moduleSessionMissing c8CexStore "M" = true) ∧ ("r" ≠ "") ∧
    (getSession c8CexStore "M" false = .ok .pyNone) ∧
    ((∃ e, set_temporary_setting c8CexStore "M" "" (some "k") (.pyStr "v") false =
       .error e) ∧
     (∃ e, read_temporary_setting c8CexStore "M" (some "r") (some "k") false =
       .error e) ∧
     (read_temporary_setting c8CexStore "M" none (some "k") false = .ok .pyNone ∧
      PyVal.pyNone.truthy = false)) :=
  ⟨rfl, by decide, rfl,
   (settings_no_session_raises c8CexStore "M" "" (some "k") (.pyStr "v") rfl).1,
   (settings_no_session_raises c8CexStore "M" "r" (some "k") (.pyStr "v") rfl).2.1
     (by decide),
   (settings_no_session_raises c8CexStore "M" "r" (some "k") (.pyStr "v") rfl).2.2
     .pyNone rfl⟩

def c4CexStore : PyVal :=
  .pyDict [("modules", .pyDict [("M", .pyDict [("selected", .pyStr "s0"),
    ("sessions", .pyDict [("s0", .pyDict [("", .pyDict [])])])])])]

def c4CexStore2 : PyVal :=
  .pyDict [("modules", .pyDict [("M", .pyDict [("selected", .pyStr "s0"),
    ("sessions", .pyDict [("s0", .pyDict [("", .pyDict [("k", .pyStr "v")])])])])])]

/-- C4 counterexample: module "M" has a selected session containing the
mapping `R = ""`; after `set_temporary_setting(…, "M", "", "k", "v")`
succeeds, `read_temporary_setting(…, "M", "", "k")` does not return
`"v"` — the empty `root_setting` is falsy in Python, so the read takes
the no-`root_setting` branch and returns the whole session dict. -/
theorem set_then_read_c4_cex :
    set_temporary_setting c4CexStore "M" "" (some "k") (.pyStr "v") false =
      .ok c4CexStore2 ∧
    read_temporary_setting c4CexStore2 "M" (some "") (some "k") false =
      .ok (.pyDict [("", .pyDict [("k", .pyStr "v")])]) ∧
    PyVal.pyDict [("", .pyDict [("k", .pyStr "v")])] ≠ .pyStr "v" :=
  ⟨rfl, rfl, fun h => PyVal.noConfusion h⟩

/-- C4 (amended): round-trip of the settings store for a nonempty
`root_setting` name.  If the store holds module `module` whose settings
contain a selected session that itself contains mapping `R` (`R ≠ ""`),
then after `set_temporary_setting(location, module, R, K, V)` a
subsequent `read_temporary_setting(location, module, R, K)` returns
exactly `V`. -/
theorem set_then_read_roundtrip (storeD modsD msD sessionsD sessD m :
      List (String × PyVal)) (selKey module R K : String) (V : PyVal)
    (hmods : storeD.lookup "modules" = some (.pyDict modsD))
    (hms : modsD.lookup module = some (.pyDict msD))
    (hsel : msD.lookup "selected" = some (.pyStr selKey))
    (hsessions : msD.lookup "sessions" = some (.pyDict sessionsD))
    (hsess : sessionsD.lookup selKey = some (.pyDict sessD))
    (hR : sessD.lookup R = some (.pyDict m))
    (hRne : R ≠ "") :
    ∃ store2,
      set_temporary_setting (.pyDict storeD) module R (some K) V false =
        .ok store2 ∧
      read_temporary_setting store2 module (some R) (some K) false = .ok V := by
  have hmsne : msD ≠ [] := by
    intro hnil
    rw [hnil] at hsel
    exact Option.noConfusion hsel
  have hsessne : sessD ≠ [] := by
    intro hnil
    rw [hnil] at hR
    exact Option.noConfusion hR
  have hmsE : msD.isEmpty = false := isEmpty_false_of_ne_nil hmsne
  have hsessE : sessD.isEmpty = false := isEmpty_false_of_ne_nil hsessne
  have hRE : R.isEmpty = false := isEmpty_false_of_ne_empty _ hRne
  have hget : getSession (.pyDict storeD) module false = .ok (.pyDict sessD) := by
    simp [getSession, getModuleSettings, pySubscript, pyContains, PyVal.truthy,
      hmods, hms, hsel, hsessions, hsess, hmsE,
      Bind.bind, Except.bind, Pure.pure, Except.pure]
  -- the updated session and the rebuilt blob
  by_cases hK : K = ""
  · -- `if setting:` is falsy: the whole mapping at R is overwritten with V
    subst hK
    have hEmpty : ("" : String).isEmpty = true := rfl
    refine ⟨.pyDict (listSet storeD "modules" (.pyDict (listSet modsD module
      (.pyDict (listSet msD "sessions" (.pyDict (listSet sessionsD selKey
        (.pyDict (listSet sessD R V))))))))), ?_, ?_⟩
    · simp [set_temporary_setting, hget, PyVal.truthy, hsessE, optStrTruthy, hEmpty,
        pySubscript, pyDictSet, hmods, hms, hsel, hsessions,
        Bind.bind, Except.bind, Pure.pure, Except.pure]
    · have l1 : (listSet storeD "modules" (.pyDict (listSet modsD module
          (.pyDict (listSet msD "sessions" (.pyDict (listSet sessionsD selKey
            (.pyDict (listSet sessD R V))))))))).lookup "modules" =
          some (.pyDict (listSet modsD module (.pyDict (listSet msD "sessions"
            (.pyDict (listSet sessionsD selKey (.pyDict (listSet sessD R V)))))))) :=
        lookup_listSet_self _ _ _
      have l2 : (listSet modsD module (.pyDict (listSet msD "sessions"
          (.pyDict (listSet sessionsD selKey (.pyDict (listSet sessD R V))))))).lookup
          module = some (.pyDict (listSet msD "sessions"
            (.pyDict (listSet sessionsD selKey (.pyDict (listSet sessD R V)))))) :=
        lookup_listSet_self _ _ _
      have l3 : (listSet msD "sessions" (.pyDict (listSet sessionsD selKey
          (.pyDict (listSet sessD R V))))).lookup "sessions" =
          some (.pyDict (listSet sessionsD selKey (.pyDict (listSet sessD R V)))) :=
        lookup_listSet_self _ _ _
      have l4 : (listSet msD "sessions" (.pyDict (listSet sessionsD selKey
          (.pyDict (listSet sessD R V))))).lookup "selected" =
          some (.pyStr selKey) := by
        rw [lookup_listSet_other _ _ _ _ (by decide)]
        exact hsel
      have l5 : (listSet sessionsD selKey (.pyDict (listSet sessD R V))).lookup
          selKey = some (.pyDict (listSet sessD R V)) := lookup_listSet_self _ _ _
      have l6 : (listSet sessD R V).lookup R = some V := lookup_listSet_self _ _ _
      simp [read_temporary_setting, getSession, getModuleSettings, pySubscript,
        pyContains, PyVal.truthy, optStrTruthy, l1, l2, l3, l4, l5, l6, hRE, hEmpty,
        listSet_isEmpty_false, Bind.bind, Except.bind, Pure.pure, Except.pure]
  · -- `if setting:` is truthy: the key K inside mapping R is updated
    have hKE : K.isEmpty = false := isEmpty_false_of_ne_empty _ hK
    refine ⟨.pyDict (listSet storeD "modules" (.pyDict (listSet modsD module
      (.pyDict (listSet msD "sessions" (.pyDict (listSet sessionsD selKey
        (.pyDict (listSet sessD R (.pyDict (listSet m K V))))))))))), ?_, ?_⟩
    · simp [set_temporary_setting, hget, PyVal.truthy, hsessE, optStrTruthy, hKE,
        pySubscript, pyDictSet, hmods, hms, hsel, hsessions, hR,
        Bind.bind, Except.bind, Pure.pure, Except.pure]
    · have l1 : (listSet storeD "modules" (.pyDict (listSet modsD module
          (.pyDict (listSet msD "sessions" (.pyDict (listSet sessionsD selKey
            (.pyDict (listSet sessD R (.pyDict (listSet m K V))))))))))).lookup
          "modules" = some (.pyDict (listSet modsD module (.pyDict (listSet msD
            "sessions" (.pyDict (listSet sessionsD selKey (.pyDict (listSet sessD R
              (.pyDict (listSet m K V)))))))))) := lookup_listSet_self _ _ _
      have l2 : (listSet modsD module (.pyDict (listSet msD "sessions"
          (.pyDict (listSet sessionsD selKey (.pyDict (listSet sessD R
            (.pyDict (listSet m K V))))))))).lookup module =
          some (.pyDict (listSet msD "sessions" (.pyDict (listSet sessionsD selKey
            (.pyDict (listSet sessD R (.pyDict (listSet m K V)))))))) :=
        lookup_listSet_self _ _ _
      have l3 : (listSet msD "sessions" (.pyDict (listSet sessionsD selKey
          (.pyDict (listSet sessD R (.pyDict (listSet m K V))))))).lookup
          "sessions" = some (.pyDict (listSet sessionsD selKey
            (.pyDict (listSet sessD R (.pyDict (listSet m K V)))))) :=
        lookup_listSet_self _ _ _
      have l4 : (listSet msD "sessions" (.pyDict (listSet sessionsD selKey
          (.pyDict (listSet sessD R (.pyDict (listSet m K V))))))).lookup
          "selected" = some (.pyStr selKey) := by
        rw [lookup_listSet_other _ _ _ _ (by decide)]
        exact hsel
      have l5 : (listSet sessionsD selKey (.pyDict (listSet sessD R
          (.pyDict (listSet m K V))))).lookup selKey =
          some (.pyDict (listSet sessD R (.pyDict (listSet m K V)))) :=
        lookup_listSet_self _ _ _
      have l6 : (listSet sessD R (.pyDict (listSet m K V))).lookup R =
          some (.pyDict (listSet m K V)) := lookup_listSet_self _ _ _
      have l7 : (listSet m K V).lookup K = some V := lookup_listSet_self _ _ _
      simp [read_temporary_setting, getSession, getModuleSettings, pySubscript,
        pyContains, PyVal.truthy, optStrTruthy, l1, l2, l3, l4, l5, l6, l7,
        hRE, hKE, listSet_isEmpty_false, Bind.bind, Except.bind, Pure.pure,
        Except.pure]

def c4WitMs : List (String × PyVal) :=
  [("selected", .pyStr "s0"),
   ("sessions", .pyDict [("s0", .pyDict [("r", .pyDict [])])])]

def c4WitMods : List (String × PyVal) := [("M", .pyDict c4WitMs)]

def c4WitStore : List (String × PyVal) := [("modules", .pyDict c4WitMods)]

theorem set_then_read_roundtrip_witness :
    (c4WitStore.lookup "modules" = some (.pyDict c4WitMods)) ∧
    (c4WitMods.lookup "M" = some (.pyDict c4WitMs)) ∧
    (c4WitMs.lookup "selected" = some (.pyStr "s0")) ∧
    (c4WitMs.lookup "sessions" =
      some (.pyDict [("s0", .pyDict [("r", .pyDict [])])])) ∧
    ([("s0", PyVal.pyDict [("r", .pyDict [])])].lookup "s0" =
      some (.pyDict [("r", .pyDict [])])) ∧
    ([("r", PyVal.pyDict [])].lookup "r" = some (.pyDict [])) ∧
    ("r" ≠ "") ∧
    (∃ store2,
      set_temporary_setting (.pyDict c4WitStore) "M" "r" (some "k")
        (.pyStr "v") false = .ok store2 ∧
      read_temporary_setting store2 "M" (some "r") (some "k") false =
        .ok (.pyStr "v")) :=
  ⟨rfl, rfl, rfl, rfl, rfl, rfl, by decide,
   set_then_read_roundtrip c4WitStore c4WitMods c4WitMs
     [("s0", .pyDict [("r", .pyDict [])])] [("r", .pyDict [])] []
     "s0" "M" "r" "k" (.pyStr "v") rfl rfl rfl rfl rfl rfl (by decide)⟩

/-! ## `check_md5_tag` (check_md5_tags.py lines 13-85)

`mutagen.File(path)` returns a format-specific object (or `None` for
unsupported formats, or raises).  Each object exposes a tag dict whose
values are lists of strings; `audio_file[key][0]` raises `IndexError`
on a present-but-empty list, and every exception inside the `try` is
caught and printed, after which the function falls off the end and
returns `None`. -/

inductive AudioFileObj where
  | flac (tags : List (String × List String)) (md5_signature : Nat)
  | mp3 (tags : List (String × List String))
  | mp4 (tags : List (String × List String))
  | other (tags : List (String × List String))

def AudioFileObj.tags : AudioFileObj → List (String × List String)
  | .flac t _ => t
  | .mp3 t => t
  | .mp4 t => t
  | .other t => t

/-- `audio_file[k][0]`. -/
def tagFirst (tags : List (String × List String)) (k : String) :
    Except String String :=
  match tags.lookup k with
  | none => .error ("KeyError: " ++ k)
  | some [] => .error "IndexError: list index out of range"
  | some (v :: _) => .ok v

/-- `'MD5' in str(key).upper()`. -/
def keyHasMD5 (k : String) : Bool :=
  decide (List.IsInfix "MD5".toList (k.toList.map Char.toUpper))

def interestingTags : List String := ["title", "artist", "album", "date", "genre"]

/-- The "Other tags" printing loop: `audio_file[tag][0]` for each
present interesting tag (its `IndexError` escapes to the handler). -/
def printOtherTags (tags : List (String × List String)) : Except String Unit :=
  interestingTags.foldlM (fun _ tag =>
    if (tags.lookup tag).isSome then do
      let _ ← tagFirst tags tag
      pure ()
    else pure ()) ()

/-- Everything inside the `try` block after `File(path)` returned an
object: compute the found flag (printing as it goes), then print the
interesting tags, then `return md5_found`. -/
def check_md5_tag_body (af : AudioFileObj) : Except String Bool := do
  let md5_found ←
    (match af with
     | .flac tags sig => do
       let found1 ←
         if (tags.lookup "MD5").isSome then do
           let _ ← tagFirst tags "MD5"
           pure true
         else pure false
       -- STREAMINFO md5_signature block
       if sig ≠ 0 then pure true else pure found1
     | .mp3 tags =>
       if (tags.lookup "TXXX:MD5").isSome then do
         let _ ← tagFirst tags "TXXX:MD5"
         pure true
       else pure false
     | .mp4 tags =>
       if (tags.lookup "----:com.apple.itunes:MD5").isSome then do
         let _ ← tagFirst tags "----:com.apple.itunes:MD5"
         pure true
       else pure false
     | .other tags => pure (tags.any fun p => keyHasMD5 p.1))
  let _ ← printOtherTags af.tags
  pure md5_found

structure CheckEnv where
  pathExists : Bool
  fileOpen : Except String (Option AudioFileObj)

inductive CheckOutcome where
  | ret (r : Option Bool)
  | raised (e : String)
deriving DecidableEq

def check_md5_tag (env : CheckEnv) : CheckOutcome :=
  if !env.pathExists then .ret none
  else
    match env.fileOpen with
    | .error _ => .ret none          -- caught by the bare `except`, printed
    | .ok none => .ret none          -- unsupported format: early `return`
    | .ok (some af) =>
      match check_md5_tag_body af with
      | .ok b => .ret (some b)
      | .error _ => .ret none        -- caught by the bare `except`, printed

/-- Modelled from the claim's words: whether an MD5 tag or an MD5
checksum is present in the audio file object. -/
def md5TagOrChecksumFound : AudioFileObj → Bool
  | .flac tags sig => (tags.lookup "MD5").isSome || decide (sig ≠ 0)
  | .mp3 tags => (tags.lookup "TXXX:MD5").isSome
  | .mp4 tags => (tags.lookup "----:com.apple.itunes:MD5").isSome
  | .other tags => tags.any fun p => keyHasMD5 p.1

theorem check_md5_tag_body_ok (af : AudioFileObj) (b : Bool)
    (h : check_md5_tag_body af = .ok b) : b = md5TagOrChecksumFound af := by
  cases af with
  | flac tags sig =>
    by_cases hmd : (tags.lookup "MD5").isSome = true
    · cases htf : tagFirst tags "MD5" with
      | error e =>
        rw [check_md5_tag_body] at h
        simp [hmd, htf, Bind.bind, Except.bind] at h
      | ok v =>
        cases hpt : printOtherTags tags with
        | error e =>
          rw [check_md5_tag_body] at h
          by_cases hsig : sig ≠ 0 <;>
            simp [hmd, htf, hpt, hsig, Bind.bind, Except.bind, Pure.pure,
              Except.pure, AudioFileObj.tags] at h
        | ok u =>
          rw [check_md5_tag_body] at h
          by_cases hsig : sig ≠ 0 <;>
            simp [hmd, htf, hpt, hsig, Bind.bind, Except.bind, Pure.pure,
              Except.pure, AudioFileObj.tags] at h <;>
            simp_all [md5TagOrChecksumFound]
    · cases hpt : printOtherTags tags with
      | error e =>
        rw [check_md5_tag_body] at h
        by_cases hsig : sig ≠ 0 <;>
          simp [hmd, hpt, hsig, Bind.bind, Except.bind, Pure.pure, Except.pure,
            AudioFileObj.tags] at h
      | ok u =>
        rw [check_md5_tag_body] at h
        by_cases hsig : sig ≠ 0 <;>
          simp [hmd, hpt, hsig, Bind.bind, Except.bind, Pure.pure, Except.pure,
            AudioFileObj.tags, md5TagOrChecksumFound] at h ⊢ <;> simp [h]
  | mp3 tags =>
    by_cases hmd : (tags.lookup "TXXX:MD5").isSome = true
    · cases htf : tagFirst tags "TXXX:MD5" with
      | error e =>
        rw [check_md5_tag_body] at h
        simp [hmd, htf, Bind.bind, Except.bind] at h
      | ok v =>
        cases hpt : printOtherTags tags with
        | error e =>
          rw [check_md5_tag_body] at h
          simp [hmd, htf, hpt, Bind.bind, Except.bind, Pure.pure, Except.pure,
            AudioFileObj.tags] at h
        | ok u =>
          rw [check_md5_tag_body] at h
          simp [hmd, htf, hpt, Bind.bind, Except.bind, Pure.pure, Except.pure,
            AudioFileObj.tags, md5TagOrChecksumFound] at h ⊢
          simp [h]
    · cases hpt : printOtherTags tags with
      | error e =>
        rw [check_md5_tag_body] at h
        simp [hmd, hpt, Bind.bind, Except.bind, Pure.pure, Except.pure,
          AudioFileObj.tags] at h
      | ok u =>
        rw [check_md5_tag_body] at h
        simp [hmd, hpt, Bind.bind, Except.bind, Pure.pure, Except.pure,
          AudioFileObj.tags, md5TagOrChecksumFound] at h ⊢
        simp [h]
  | mp4 tags =>
    by_cases hmd : (tags.lookup "----:com.apple.itunes:MD5").isSome = true
    · cases htf : tagFirst tags "----:com.apple.itunes:MD5" with
      | error e =>
        rw [check_md5_tag_body] at h
        simp [hmd, htf, Bind.bind, Except.bind] at h
      | ok v =>
        cases hpt : printOtherTags tags with
        | error e =>
          rw [check_md5_tag_body] at h
          simp [hmd, htf, hpt, Bind.bind, Except.bind, Pure.pure, Except.pure,
            AudioFileObj.tags] at h
        | ok u =>
          rw [check_md5_tag_body] at h
          simp [hmd, htf, hpt, Bind.bind, Except.bind, Pure.pure, Except.pure,
            AudioFileObj.tags, md5TagOrChecksumFound] at h ⊢
          simp [h]
    · cases hpt : printOtherTags tags with
      | error e =>
        rw [check_md5_tag_body] at h
        simp [hmd, hpt, Bind.bind, Except.bind, Pure.pure, Except.pure,
          AudioFileObj.tags] at h
      | ok u =>
        rw [check_md5_tag_body] at h
        simp [hmd, hpt, Bind.bind, Except.bind, Pure.pure, Except.pure,
          AudioFileObj.tags, md5TagOrChecksumFound] at h ⊢
        simp [h]
  | other tags =>
    cases hpt : printOtherTags tags with
    | error e =>
      rw [check_md5_tag_body] at h
      simp [hpt, Bind.bind, Except.bind, Pure.pure, Except.pure,
        AudioFileObj.tags] at h
    | ok u =>
      rw [check_md5_tag_body] at h
      simp [hpt, Bind.bind, Except.bind, Pure.pure, Except.pure,
        AudioFileObj.tags, md5TagOrChecksumFound] at h ⊢
      simp [h]

/-- C9 (amended): for every environment, `check_md5_tag` never
propagates an exception raised while reading or inspecting the file's
tags (the bare `except` catches and reports them all); when inspection
completes without an exception on a recognized object, the function
returns the boolean "found" flag, which indicates whether an MD5 tag
or checksum was found; on a caught error or an unsupported format it
returns `None` (falsy) instead of a boolean. -/
theorem check_md5_tag_spec (env : CheckEnv) :
    (∀ e, check_md5_tag env ≠ .raised e) ∧
    (∀ af b, env.fileOpen = .ok (some af) → env.pathExists = true →
      check_md5_tag_body af = .ok b →
      check_md5_tag env = .ret (some b) ∧ b = md5TagOrChecksumFound af) := by
  obtain ⟨pe, fo⟩ := env
  constructor
  · intro e h
    cases pe with
    | false => exact CheckOutcome.noConfusion h
    | true =>
      cases fo with
      | error e2 => exact CheckOutcome.noConfusion h
      | ok af? =>
        cases af? with
        | none => exact CheckOutcome.noConfusion h
        | some af =>
          rw [check_md5_tag] at h
          cases hb : check_md5_tag_body af with
          | ok b => simp [hb] at h
          | error e2 => simp [hb] at h
  · intro af b hfo hpe hbody
    subst hpe
    cases hfo
    constructor
    · rw [check_md5_tag]
      simp [hbody]
    · exact check_md5_tag_body_ok af b hbody

def c9CexEnv : CheckEnv := ⟨true, .error "MutagenError: could not read file"⟩

/-- C9 counterexample: on an existing file whose tag read raises, the
exception is caught and `check_md5_tag` returns `None` — which is not a
boolean — so "its return value is a boolean found flag" fails as
stated. -/
theorem check_md5_tag_c9_cex :
    check_md5_tag c9CexEnv = .ret none ∧
    CheckOutcome.ret none ≠ .ret (some true) ∧
    CheckOutcome.ret none ≠ .ret (some false) :=
  ⟨rfl, by decide, by decide⟩

def c9WitAf : AudioFileObj := .flac [("MD5", ["aabb"])] 5

def c9WitEnv : CheckEnv := ⟨true, .ok (some c9WitAf)⟩

theorem check_md5_tag_spec_witness :
    (c9WitEnv.fileOpen = .ok (some c9WitAf)) ∧
    (c9WitEnv.pathExists = true) ∧
    (check_md5_tag_body c9WitAf = .ok true) ∧
    (check_md5_tag c9WitEnv = .ret (some true) ∧
     true = md5TagOrChecksumFound c9WitAf) :=
  ⟨rfl, rfl, rfl, (check_md5_tag_spec c9WitEnv).2 c9WitAf true rfl rfl rfl⟩

/-! ## `fix_byte_limit` (utils/utils.py lines 189-202)

`os.path.relpath` (POSIX), `os.path.split` (POSIX) and Python's UTF-8
codec with the `'ignore'` error handler, modelled on `List Char` /
`List Nat`.  `cwd` is the process working directory that
`os.path.relpath` consults (assumed absolute, as `os.getcwd` returns). -/

/-- `str.split('/')`. -/
def splitOnChar (c : Char) : List Char → List (List Char)
  | [] => [[]]
  | x :: rest =>
    match splitOnChar c rest with
    | h :: t => if x = c then [] :: h :: t else (x :: h) :: t
    | [] => [[x]]

/-- `'/'.join(...)` over nonempty parts, and `posixpath.join` over
relative components. -/
def joinWithSlash : List (List Char) → List Char
  | [] => []
  | [p] => p
  | p :: rest => p ++ '/' :: joinWithSlash rest

def isPrefixList : List Char → List Char → Bool
  | [], _ => true
  | _ :: _, [] => false
  | p :: ps, x :: xs => p == x && isPrefixList ps xs

/-- `posixpath.join(a, b)` for two components. -/
def posixJoin2 (a b : List Char) : List Char :=
  if isPrefixList ['/'] b then b
  else if a = [] ∨ a.getLast? = some '/' then a ++ b
  else a ++ '/' :: b

/-- `posixpath.normpath`. -/
def normpathL (path : List Char) : List Char :=
  if path = [] then ['.'] else
  let initialSlashes : Nat :=
    if isPrefixList ['/'] path then
      if isPrefixList ['/', '/'] path && !isPrefixList ['/', '/', '/'] path then 2
      else 1
    else 0
  let comps := splitOnChar '/' path
  let newComps := comps.foldl (fun acc comp =>
    if comp = [] ∨ comp = ['.'] then acc
    else if comp ≠ ['.', '.'] ∨ (initialSlashes = 0 ∧ acc = []) ∨
        (acc ≠ [] ∧ acc.getLast? = some ['.', '.']) then acc ++ [comp]
    else if acc ≠ [] then acc.dropLast
    else acc) []
  let res := List.replicate initialSlashes '/' ++ joinWithSlash newComps
  if res = [] then ['.'] else res

/-- `posixpath.abspath` with an explicit working directory. -/
def abspathL (cwd path : List Char) : List Char := normpathL (posixJoin2 cwd path)

/-- `genericpath.commonprefix` on two component lists. -/
def commonPrefixLen : List (List Char) → List (List Char) → Nat
  | a :: as2, b :: bs => if a = b then 1 + commonPrefixLen as2 bs else 0
  | _, _ => 0

/-- `posixpath.relpath(path)` with `start='.'` resolved against `cwd`. -/
def relpathL (cwd path : List Char) : Except String (List Char) :=
  if path = [] then .error "ValueError: no path specified"
  else
    let startList := (splitOnChar '/' (abspathL cwd ['.'])).filter (fun x => x != [])
    let pathList := (splitOnChar '/' (abspathL cwd path)).filter (fun x => x != [])
    let i := commonPrefixLen startList pathList
    let relList := List.replicate (startList.length - i) ['.', '.'] ++ pathList.drop i
    if relList = [] then .ok ['.']
    else .ok (joinWithSlash relList)

/-- Index just after the last `'/'` (`p.rfind('/') + 1`). -/
def afterLastSlash : List Char → Nat
  | [] => 0
  | c :: rest =>
    let r := afterLastSlash rest
    if r > 0 then r + 1
    else if c = '/' then 1 else 0

/-- `rstrip('/')`. -/
def stripTrail (cs : List Char) : List Char :=
  (cs.reverse.dropWhile (fun c => c == '/')).reverse

/-- `posixpath.split`. -/
def pySplitL (p : List Char) : List Char × List Char :=
  let i := afterLastSlash p
  let head := p.take i
  let tail := p.drop i
  let head2 :=
    if !head.isEmpty && head.any (fun c => c != '/') then stripTrail head else head
  (head2, tail)

/-- UTF-8 encoding of one scalar value (`str.encode('utf-8')` per char). -/
def utf8EncodeChar (c : Char) : List Nat :=
  let n := c.toNat
  if n < 128 then [n]
  else if n < 2048 then [192 + n / 64, 128 + n % 64]
  else if n < 65536 then [224 + n / 4096, 128 + n / 64 % 64, 128 + n % 64]
  else [240 + n / 262144, 128 + n / 4096 % 64, 128 + n / 64 % 64, 128 + n % 64]

def utf8Encode (s : List Char) : List Nat := s.flatMap utf8EncodeChar

def isCont (b : Nat) : Bool := decide (128 ≤ b) && decide (b ≤ 191)

def valid2 (b1 b2 : Nat) : Bool :=
  decide (194 ≤ b1) && decide (b1 ≤ 223) && isCont b2

def valid3 (b1 b2 b3 : Nat) : Bool :=
  ((b1 == 224 && decide (160 ≤ b2) && decide (b2 ≤ 191)) ||
   (decide (225 ≤ b1) && decide (b1 ≤ 236) && isCont b2) ||
   (b1 == 237 && decide (128 ≤ b2) && decide (b2 ≤ 159)) ||
   (decide (238 ≤ b1) && decide (b1 ≤ 239) && isCont b2)) && isCont b3

def valid4 (b1 b2 b3 b4 : Nat) : Bool :=
  ((b1 == 240 && decide (144 ≤ b2) && decide (b2 ≤ 191)) ||
   (decide (241 ≤ b1) && decide (b1 ≤ 243) && isCont b2) ||
   (b1 == 244 && decide (128 ≤ b2) && decide (b2 ≤ 143))) &&
  isCont b3 && isCont b4

def dec2 (b1 b2 : Nat) : Nat := (b1 - 192) * 64 + (b2 - 128)

def dec3 (b1 b2 b3 : Nat) : Nat :=
  (b1 - 224) * 4096 + (b2 - 128) * 64 + (b3 - 128)

def dec4 (b1 b2 b3 b4 : Nat) : Nat :=
  (b1 - 240) * 262144 + (b2 - 128) * 4096 + (b3 - 128) * 64 + (b4 - 128)

/-- Python's UTF-8 decoder with `errors='ignore'`: strict (minimal,
surrogate-free) sequences are decoded, every byte of an invalid or
truncated sequence is dropped.  Fuel is the length of the input. -/
def utf8DecodeIgnoreAux : Nat → List Nat → List Char
  | 0, _ => []
  | _ + 1, [] => []
  | fuel + 1, b :: bs =>
    if b < 128 then Char.ofNat b :: utf8DecodeIgnoreAux fuel bs
    else
      match bs with
      | b2 :: b3 :: b4 :: rest =>
        if valid2 b b2 then
          Char.ofNat (dec2 b b2) :: utf8DecodeIgnoreAux fuel (b3 :: b4 :: rest)
        else if valid3 b b2 b3 then
          Char.ofNat (dec3 b b2 b3) :: utf8DecodeIgnoreAux fuel (b4 :: rest)
        else if valid4 b b2 b3 b4 then
          Char.ofNat (dec4 b b2 b3 b4) :: utf8DecodeIgnoreAux fuel rest
        else utf8DecodeIgnoreAux fuel bs
      | [b2, b3] =>
        if valid2 b b2 then Char.ofNat (dec2 b b2) :: utf8DecodeIgnoreAux fuel [b3]
        else if valid3 b b2 b3 then
          Char.ofNat (dec3 b b2 b3) :: utf8DecodeIgnoreAux fuel []
        else utf8DecodeIgnoreAux fuel bs
      | [b2] =>
        if valid2 b b2 then Char.ofNat (dec2 b b2) :: utf8DecodeIgnoreAux fuel []
        else utf8DecodeIgnoreAux fuel bs
      | [] => []

def utf8DecodeIgnore (bs : List Nat) : List Char := utf8DecodeIgnoreAux bs.length bs

def backslashToSlash (cs : List Char) : List Char :=
  cs.map fun c => if c = Char.ofNat 92 then '/' else c

def fix_byte_limit (cwd path : String) (byte_limit : Nat) : Except String String :=
  match relpathL cwd.toList path.toList with
  | .error e => .error e
  | .ok rel =>
    let rel_path := backslashToSlash rel
    let sp := pySplitL rel_path
    let filename_bytes := utf8Encode sp.2
    let fixed_bytes := filename_bytes.take byte_limit
    let fixed_filename := utf8DecodeIgnore fixed_bytes
    .ok ⟨sp.1 ++ '/' :: fixed_filename⟩

/-! ### Lemmas about `posixpath.split` -/

theorem afterLastSlash_eq_zero_of_not_mem (cs : List Char) (h : '/' ∉ cs) :
    afterLastSlash cs = 0 := by
  induction cs with
  | nil => rfl
  | cons c rest ih =>
    have hc : c ≠ '/' := fun hh => h (hh ▸ List.mem_cons_self c rest)
    have hr : '/' ∉ rest := fun hh => h (List.mem_cons_of_mem c hh)
    simp [afterLastSlash, ih hr, hc]

theorem not_mem_of_afterLastSlash_eq_zero (cs : List Char)
    (h : afterLastSlash cs = 0) : '/' ∉ cs := by
  induction cs with
  | nil => simp
  | cons c rest ih =>
    by_cases hr : afterLastSlash rest > 0
    · rw [show afterLastSlash (c :: rest) = afterLastSlash rest + 1 by
        simp [afterLastSlash, hr]] at h
      omega
    · by_cases hc : c = '/'
      · rw [show afterLastSlash (c :: rest) = 1 by simp [afterLastSlash, hr, hc]] at h
        omega
      · intro hmem
        rcases List.mem_cons.mp hmem with h1 | h2
        · exact hc h1.symm
        · exact ih (by omega) h2

theorem drop_afterLastSlash_not_mem (cs : List Char) :
    '/' ∉ cs.drop (afterLastSlash cs) := by
  induction cs with
  | nil => simp
  | cons c rest ih =>
    by_cases hr : afterLastSlash rest > 0
    · rw [show afterLastSlash (c :: rest) = afterLastSlash rest + 1 by
        simp [afterLastSlash, hr]]
      rw [List.drop_succ_cons]
      exact ih
    · have hr0 : afterLastSlash rest = 0 := by omega
      by_cases hc : c = '/'
      · rw [show afterLastSlash (c :: rest) = 1 by simp [afterLastSlash, hr, hc]]
        rw [List.drop_succ_cons, List.drop_zero]
        exact not_mem_of_afterLastSlash_eq_zero rest hr0
      · rw [show afterLastSlash (c :: rest) = 0 by simp [afterLastSlash, hr, hc]]
        rw [List.drop_zero]
        intro hmem
        rcases List.mem_cons.mp hmem with h1 | h2
        · exact hc h1.symm
        · exact not_mem_of_afterLastSlash_eq_zero rest hr0 h2

theorem afterLastSlash_append (d f : List Char) (hf : '/' ∉ f) :
    afterLastSlash (d ++ '/' :: f) = d.length + 1 := by
  induction d with
  | nil =>
    have h0 : afterLastSlash f = 0 := afterLastSlash_eq_zero_of_not_mem f hf
    simp [afterLastSlash, h0]
  | cons c rest ih =>
    simp only [List.cons_append, List.length_cons]
    simp [afterLastSlash, ih]

theorem take_append_slash (d f : List Char) :
    (d ++ '/' :: f).take (d.length + 1) = d ++ ['/'] := by
  have h1 : d ++ '/' :: f = (d ++ ['/']) ++ f := by simp
  have h2 : d.length + 1 = (d ++ ['/']).length := by simp
  rw [h1, h2, List.take_left]

theorem drop_append_slash (d f : List Char) :
    (d ++ '/' :: f).drop (d.length + 1) = f := by
  have h1 : d ++ '/' :: f = (d ++ ['/']) ++ f := by simp
  have h2 : d.length + 1 = (d ++ ['/']).length := by simp
  rw [h1, h2, List.drop_left]

theorem any_ne_eq_not_all_eq (d : List Char) :
    (d.any fun c => c != '/') = !(d.all fun c => c == '/') := by
  induction d with
  | nil => rfl
  | cons c t ih =>
    simp only [List.any_cons, List.all_cons, Bool.not_and, bne] at ih ⊢
    rw [ih]

theorem dropWhile_idem {α : Type} (p : α → Bool) (l : List α) :
    (l.dropWhile p).dropWhile p = l.dropWhile p := by
  induction l with
  | nil => rfl
  | cons a t ih =>
    by_cases h : p a = true
    · simp [List.dropWhile_cons, h, ih]
    · simp [List.dropWhile_cons, h]

theorem stripTrail_idem (cs : List Char) : stripTrail (stripTrail cs) = stripTrail cs := by
  simp [stripTrail, List.reverse_reverse, dropWhile_idem]

theorem stripTrail_append_slash (d : List Char) :
    stripTrail (d ++ ['/']) = stripTrail d := by
  simp [stripTrail, List.reverse_append, List.dropWhile_cons]

theorem pySplitL_head_shape (p : List Char) :
    ((pySplitL p).1.all fun c => c == '/') = true ∨
      stripTrail (pySplitL p).1 = (pySplitL p).1 := by
  have h1 : (pySplitL p).1 =
      (if !(p.take (afterLastSlash p)).isEmpty &&
          ((p.take (afterLastSlash p)).any fun c => c != '/') then
        stripTrail (p.take (afterLastSlash p))
      else p.take (afterLastSlash p)) := rfl
  rw [h1]
  by_cases hc : (!(p.take (afterLastSlash p)).isEmpty &&
      ((p.take (afterLastSlash p)).any fun c => c != '/')) = true
  · rw [if_pos hc]
    exact Or.inr (stripTrail_idem _)
  · rw [if_neg hc]
    left
    rcases Bool.and_eq_false_iff.mp (Bool.eq_false_iff.mpr hc) with h2 | h2
    · have : (p.take (afterLastSlash p)).isEmpty = true := by
        cases hie : (p.take (afterLastSlash p)).isEmpty
        · rw [hie] at h2; exact absurd h2 (by decide)
        · rfl
      rw [List.isEmpty_iff.mp this]
      rfl
    · rw [any_ne_eq_not_all_eq] at h2
      cases hall : (p.take (afterLastSlash p)).all fun c => c == '/'
      · rw [hall] at h2; exact absurd h2 (by decide)
      · rfl

theorem pySplitL_tail_not_mem (p : List Char) : '/' ∉ (pySplitL p).2 :=
  drop_afterLastSlash_not_mem p

theorem pySplitL_append_slash (d f : List Char) (hf : '/' ∉ f)
    (hd : (d.all fun c => c == '/') = true ∨ stripTrail d = d) :
    pySplitL (d ++ '/' :: f) =
      ((if d.all (fun c => c == '/') then d ++ ['/'] else d), f) := by
  have hals : afterLastSlash (d ++ '/' :: f) = d.length + 1 :=
    afterLastSlash_append d f hf
  have h1 : pySplitL (d ++ '/' :: f) =
      ((if !((d ++ '/' :: f).take (afterLastSlash (d ++ '/' :: f))).isEmpty &&
          (((d ++ '/' :: f).take (afterLastSlash (d ++ '/' :: f))).any
            fun c => c != '/') then
        stripTrail ((d ++ '/' :: f).take (afterLastSlash (d ++ '/' :: f)))
      else (d ++ '/' :: f).take (afterLastSlash (d ++ '/' :: f))),
      (d ++ '/' :: f).drop (afterLastSlash (d ++ '/' :: f))) := rfl
  have htake : (d ++ '/' :: f).take (afterLastSlash (d ++ '/' :: f)) = d ++ ['/'] := by
    rw [hals]; exact take_append_slash d f
  have hdrop : (d ++ '/' :: f).drop (afterLastSlash (d ++ '/' :: f)) = f := by
    rw [hals]; exact drop_append_slash d f
  rw [h1, htake, hdrop]
  have hany : ((d ++ ['/']).any fun c => c != '/') = (d.any fun c => c != '/') := by
    simp [List.any_append]
  cases hall : (d.all fun c => c == '/') with
  | true =>
    have hany2 : ((d ++ ['/']).any fun c => c != '/') = false := by
      rw [hany, any_ne_eq_not_all_eq, hall]
      rfl
    rw [if_neg (by rw [hany2]; simp)]
    rw [if_pos rfl]
  | false =>
    have hstrip : stripTrail d = d := by
      rcases hd with h | h
      · rw [h] at hall; exact absurd hall (by decide)
      · exact h
    have hany2 : ((d ++ ['/']).any fun c => c != '/') = true := by
      rw [hany, any_ne_eq_not_all_eq, hall]
      rfl
    have hne : (d ++ ['/']).isEmpty = false := by
      cases d <;> rfl
    rw [if_pos (by rw [hany2, hne]; rfl)]
    rw [stripTrail_append_slash, hstrip]
    rw [if_neg (by simp)]

/-! ### Lemmas about the UTF-8 codec -/

theorem toNat_ofNat_valid (n : Nat) (h : n.isValidChar) : (Char.ofNat n).toNat = n := by
  unfold Char.ofNat
  rw [dif_pos h]
  unfold Char.ofNatAux Char.toNat
  simp [UInt32.toNat, UInt32.ofNatCore, BitVec.toNat_ofNatLt]

theorem valid2_bounds (b1 b2 : Nat) (h : valid2 b1 b2 = true) :
    128 ≤ dec2 b1 b2 ∧ dec2 b1 b2 < 2048 := by
  simp [valid2, isCont] at h
  unfold dec2
  omega

theorem valid3_bounds (b1 b2 b3 : Nat) (h : valid3 b1 b2 b3 = true) :
    2048 ≤ dec3 b1 b2 b3 ∧ dec3 b1 b2 b3 < 65536 ∧
      (dec3 b1 b2 b3 < 55296 ∨ 57343 < dec3 b1 b2 b3) := by
  simp [valid3, isCont] at h
  unfold dec3
  obtain ⟨h1, h3⟩ := h
  rcases h1 with ((h1 | h1) | h1) | h1 <;> omega

theorem valid4_bounds (b1 b2 b3 b4 : Nat) (h : valid4 b1 b2 b3 b4 = true) :
    65536 ≤ dec4 b1 b2 b3 b4 ∧ dec4 b1 b2 b3 b4 < 1114112 := by
  simp [valid4, isCont] at h
  unfold dec4
  obtain ⟨⟨h1, h3⟩, h4⟩ := h
  rcases h1 with (h1 | h1) | h1 <;> omega

theorem dec2_valid (b1 b2 : Nat) (h : valid2 b1 b2 = true) :
    (dec2 b1 b2).isValidChar := by
  have hb := valid2_bounds b1 b2 h
  exact Or.inl (by omega)

theorem dec3_valid (b1 b2 b3 : Nat) (h : valid3 b1 b2 b3 = true) :
    (dec3 b1 b2 b3).isValidChar := by
  have hb := valid3_bounds b1 b2 b3 h
  rcases hb.2.2 with h1 | h1
  · exact Or.inl (by omega)
  · exact Or.inr ⟨by omega, by omega⟩

theorem dec4_valid (b1 b2 b3 b4 : Nat) (h : valid4 b1 b2 b3 b4 = true) :
    (dec4 b1 b2 b3 b4).isValidChar := by
  have hb := valid4_bounds b1 b2 b3 b4 h
  exact Or.inr ⟨by omega, by omega⟩

theorem ascii_valid (b : Nat) (h : b < 128) : b.isValidChar :=
  Or.inl (by omega)

theorem length_encodeChar_ascii (b : Nat) (h : b < 128) :
    (utf8EncodeChar (Char.ofNat b)).length = 1 := by
  unfold utf8EncodeChar
  rw [toNat_ofNat_valid b (ascii_valid b h)]
  rw [if_pos h]
  rfl

theorem length_encodeChar_two (v : Nat) (hv : v.isValidChar) (h1 : 128 ≤ v)
    (h2 : v < 2048) : (utf8EncodeChar (Char.ofNat v)).length = 2 := by
  unfold utf8EncodeChar
  rw [toNat_ofNat_valid v hv]
  rw [if_neg (by omega), if_pos h2]
  rfl

theorem length_encodeChar_three (v : Nat) (hv : v.isValidChar) (h1 : 2048 ≤ v)
    (h2 : v < 65536) : (utf8EncodeChar (Char.ofNat v)).length = 3 := by
  unfold utf8EncodeChar
  rw [toNat_ofNat_valid v hv]
  rw [if_neg (by omega), if_neg (by omega), if_pos h2]
  rfl

theorem length_encodeChar_four (v : Nat) (hv : v.isValidChar) (h1 : 65536 ≤ v) :
    (utf8EncodeChar (Char.ofNat v)).length = 4 := by
  unfold utf8EncodeChar
  rw [toNat_ofNat_valid v hv]
  rw [if_neg (by omega), if_neg (by omega), if_neg (by omega)]
  rfl

theorem utf8Encode_cons (c : Char) (l : List Char) :
    utf8Encode (c :: l) = utf8EncodeChar c ++ utf8Encode l := by
  simp [utf8Encode]

theorem ofNat_ne_slash_of_ge_128 (v : Nat) (hval : v.isValidChar) (hge : 128 ≤ v) :
    Char.ofNat v ≠ '/' := by
  intro hc
  have h47 : (Char.ofNat v).toNat = 47 := by rw [hc]; rfl
  rw [toNat_ofNat_valid v hval] at h47
  omega

theorem ofNat_ne_slash_of_ascii (v : Nat) (h : v < 128) (hne : v ≠ 47) :
    Char.ofNat v ≠ '/' := by
  intro hc
  have h47 : (Char.ofNat v).toNat = 47 := by rw [hc]; rfl
  rw [toNat_ofNat_valid v (ascii_valid v h)] at h47
  exact hne h47

theorem decodeAux_no_slash (fuel : Nat) : ∀ bs : List Nat, (47 : Nat) ∉ bs →
    '/' ∉ utf8DecodeIgnoreAux fuel bs := by
  induction fuel with
  | zero => intro bs _; simp [utf8DecodeIgnoreAux]
  | succ fuel ih =>
    intro bs h
    cases bs with
    | nil => simp [utf8DecodeIgnoreAux]
    | cons b bs1 =>
      have hb : b ≠ 47 := fun hh => h (hh ▸ List.mem_cons_self b bs1)
      have h1 : (47 : Nat) ∉ bs1 := fun hh => h (List.mem_cons_of_mem b hh)
      by_cases hascii : b < 128
      · simp only [utf8DecodeIgnoreAux, if_pos hascii]
        intro hmem
        rcases List.mem_cons.mp hmem with hc | hc
        · exact ofNat_ne_slash_of_ascii b hascii hb hc.symm
        · exact ih bs1 h1 hc
      · cases bs1 with
        | nil => simp [utf8DecodeIgnoreAux, hascii]
        | cons b2 bs2 =>
          have h2 : (47 : Nat) ∉ bs2 := fun hh => h1 (List.mem_cons_of_mem b2 hh)
          cases bs2 with
          | nil =>
            by_cases hv2 : valid2 b b2 = true
            · simp only [utf8DecodeIgnoreAux, if_neg hascii, if_pos hv2]
              intro hmem
              rcases List.mem_cons.mp hmem with hc | hc
              · exact ofNat_ne_slash_of_ge_128 _ (dec2_valid b b2 hv2)
                  (valid2_bounds b b2 hv2).1 hc.symm
              · exact ih [] (by simp) hc
            · simp only [utf8DecodeIgnoreAux, if_neg hascii, if_neg hv2]
              exact ih [b2] h1
          | cons b3 bs3 =>
            have h3 : (47 : Nat) ∉ bs3 := fun hh => h2 (List.mem_cons_of_mem b3 hh)
            cases bs3 with
            | nil =>
              by_cases hv2 : valid2 b b2 = true
              · simp only [utf8DecodeIgnoreAux, if_neg hascii, if_pos hv2]
                intro hmem
                rcases List.mem_cons.mp hmem with hc | hc
                · exact ofNat_ne_slash_of_ge_128 _ (dec2_valid b b2 hv2)
                    (valid2_bounds b b2 hv2).1 hc.symm
                · exact ih [b3] h2 hc
              · by_cases hv3 : valid3 b b2 b3 = true
                · simp only [utf8DecodeIgnoreAux, if_neg hascii, if_neg hv2, if_pos hv3]
                  intro hmem
                  rcases List.mem_cons.mp hmem with hc | hc
                  · exact ofNat_ne_slash_of_ge_128 _ (dec3_valid b b2 b3 hv3)
                      (by have := (valid3_bounds b b2 b3 hv3).1; omega) hc.symm
                  · exact ih [] (by simp) hc
                · simp only [utf8DecodeIgnoreAux, if_neg hascii, if_neg hv2, if_neg hv3]
                  exact ih [b2, b3] h1
            | cons b4 bs4 =>
              by_cases hv2 : valid2 b b2 = true
              · simp only [utf8DecodeIgnoreAux, if_neg hascii, if_pos hv2]
                intro hmem
                rcases List.mem_cons.mp hmem with hc | hc
                · exact ofNat_ne_slash_of_ge_128 _ (dec2_valid b b2 hv2)
                    (valid2_bounds b b2 hv2).1 hc.symm
                · exact ih (b3 :: b4 :: bs4) h2 hc
              · by_cases hv3 : valid3 b b2 b3 = true
                · simp only [utf8DecodeIgnoreAux, if_neg hascii, if_neg hv2, if_pos hv3]
                  intro hmem
                  rcases List.mem_cons.mp hmem with hc | hc
                  · exact ofNat_ne_slash_of_ge_128 _ (dec3_valid b b2 b3 hv3)
                      (by have := (valid3_bounds b b2 b3 hv3).1; omega) hc.symm
                  · exact ih (b4 :: bs4) h3 hc
                · by_cases hv4 : valid4 b b2 b3 b4 = true
                  · simp only [utf8DecodeIgnoreAux, if_neg hascii, if_neg hv2,
                      if_neg hv3, if_pos hv4]
                    intro hmem
                    rcases List.mem_cons.mp hmem with hc | hc
                    · exact ofNat_ne_slash_of_ge_128 _ (dec4_valid b b2 b3 b4 hv4)
                        (by have := (valid4_bounds b b2 b3 b4 hv4).1; omega) hc.symm
                    · exact ih bs4 (fun hh => h3 (List.mem_cons_of_mem b4 hh)) hc
                  · simp only [utf8DecodeIgnoreAux, if_neg hascii, if_neg hv2,
                      if_neg hv3, if_neg hv4]
                    exact ih (b2 :: b3 :: b4 :: bs4) h1

theorem encode_decodeAux_length_le (fuel : Nat) : ∀ bs : List Nat,
    (utf8Encode (utf8DecodeIgnoreAux fuel bs)).length ≤ bs.length := by
  induction fuel with
  | zero => intro bs; simp [utf8DecodeIgnoreAux, utf8Encode]
  | succ fuel ih =>
    intro bs
    cases bs with
    | nil => simp [utf8DecodeIgnoreAux, utf8Encode]
    | cons b bs1 =>
      by_cases hascii : b < 128
      · simp only [utf8DecodeIgnoreAux, if_pos hascii, utf8Encode_cons,
          List.length_append, List.length_cons]
        rw [length_encodeChar_ascii b hascii]
        have hrec := ih bs1
        omega
      · cases bs1 with
        | nil => simp [utf8DecodeIgnoreAux, hascii, utf8Encode]
        | cons b2 bs2 =>
          cases bs2 with
          | nil =>
            by_cases hv2 : valid2 b b2 = true
            · simp only [utf8DecodeIgnoreAux, if_neg hascii, if_pos hv2,
                utf8Encode_cons, List.length_append, List.length_cons]
              rw [length_encodeChar_two _ (dec2_valid b b2 hv2)
                (valid2_bounds b b2 hv2).1 (valid2_bounds b b2 hv2).2]
              have hrec := ih ([] : List Nat)
              simp at hrec
              simp [hrec]
            · simp only [utf8DecodeIgnoreAux, if_neg hascii, if_neg hv2,
                List.length_cons]
              have hrec := ih [b2]
              simp at hrec ⊢
              omega
          | cons b3 bs3 =>
            cases bs3 with
            | nil =>
              by_cases hv2 : valid2 b b2 = true
              · simp only [utf8DecodeIgnoreAux, if_neg hascii, if_pos hv2,
                  utf8Encode_cons, List.length_append, List.length_cons]
                rw [length_encodeChar_two _ (dec2_valid b b2 hv2)
                  (valid2_bounds b b2 hv2).1 (valid2_bounds b b2 hv2).2]
                have hrec := ih [b3]
                simp at hrec ⊢
                omega
              · by_cases hv3 : valid3 b b2 b3 = true
                · simp only [utf8DecodeIgnoreAux, if_neg hascii, if_neg hv2,
                    if_pos hv3, utf8Encode_cons, List.length_append, List.length_cons]
                  rw [length_encodeChar_three _ (dec3_valid b b2 b3 hv3)
                    (valid3_bounds b b2 b3 hv3).1 (valid3_bounds b b2 b3 hv3).2.1]
                  have hrec := ih ([] : List Nat)
                  simp at hrec
                  simp [hrec]
                · simp only [utf8DecodeIgnoreAux, if_neg hascii, if_neg hv2,
                    if_neg hv3, List.length_cons]
                  have hrec := ih [b2, b3]
                  simp at hrec ⊢
                  omega
            | cons b4 bs4 =>
              by_cases hv2 : valid2 b b2 = true
              · simp only [utf8DecodeIgnoreAux, if_neg hascii, if_pos hv2,
                  utf8Encode_cons, List.length_append, List.length_cons]
                rw [length_encodeChar_two _ (dec2_valid b b2 hv2)
                  (valid2_bounds b b2 hv2).1 (valid2_bounds b b2 hv2).2]
                have hrec := ih (b3 :: b4 :: bs4)
                simp at hrec ⊢
                omega
              · by_cases hv3 : valid3 b b2 b3 = true
                · simp only [utf8DecodeIgnoreAux, if_neg hascii, if_neg hv2,
                    if_pos hv3, utf8Encode_cons, List.length_append, List.length_cons]
                  rw [length_encodeChar_three _ (dec3_valid b b2 b3 hv3)
                    (valid3_bounds b b2 b3 hv3).1 (valid3_bounds b b2 b3 hv3).2.1]
                  have hrec := ih (b4 :: bs4)
                  simp at hrec ⊢
                  omega
                · by_cases hv4 : valid4 b b2 b3 b4 = true
                  · simp only [utf8DecodeIgnoreAux, if_neg hascii, if_neg hv2,
                      if_neg hv3, if_pos hv4, utf8Encode_cons, List.length_append,
                      List.length_cons]
                    rw [length_encodeChar_four _ (dec4_valid b b2 b3 b4 hv4)
                      (valid4_bounds b b2 b3 b4 hv4).1]
                    have hrec := ih bs4
                    simp at hrec ⊢
                    omega
                  · simp only [utf8DecodeIgnoreAux, if_neg hascii, if_neg hv2,
                      if_neg hv3, if_neg hv4, List.length_cons]
                    have hrec := ih (b2 :: b3 :: b4 :: bs4)
                    simp at hrec ⊢
                    omega

theorem utf8EncodeChar_not_mem_47 (c : Char) (h : c.toNat ≠ 47) :
    (47 : Nat) ∉ utf8EncodeChar c := by
  unfold utf8EncodeChar
  by_cases h1 : c.toNat < 128
  · rw [if_pos h1]
    intro hmem
    simp only [List.mem_cons, List.not_mem_nil, or_false] at hmem
    omega
  · by_cases h2 : c.toNat < 2048
    · rw [if_neg h1, if_pos h2]
      intro hmem
      simp only [List.mem_cons, List.not_mem_nil, or_false] at hmem
      rcases hmem with hm | hm <;> omega
    · by_cases h3 : c.toNat < 65536
      · rw [if_neg h1, if_neg h2, if_pos h3]
        intro hmem
        simp only [List.mem_cons, List.not_mem_nil, or_false] at hmem
        rcases hmem with hm | hm | hm <;> omega
      · rw [if_neg h1, if_neg h2, if_neg h3]
        intro hmem
        simp only [List.mem_cons, List.not_mem_nil, or_false] at hmem
        rcases hmem with hm | hm | hm | hm <;> omega

theorem not_mem_47_utf8Encode (f : List Char) (hf : '/' ∉ f) :
    (47 : Nat) ∉ utf8Encode f := by
  induction f with
  | nil => simp [utf8Encode]
  | cons c t ih =>
    have hc : c ≠ '/' := fun hh => hf (hh ▸ List.mem_cons_self c t)
    have ht : '/' ∉ t := fun hh => hf (List.mem_cons_of_mem c hh)
    rw [utf8Encode_cons]
    intro hmem
    rcases List.mem_append.mp hmem with hm | hm
    · have hcn : c.toNat ≠ 47 := by
        intro h47
        apply hc
        have hofto := Char.ofNat_toNat c
        rw [h47] at hofto
        rw [← hofto]
      exact utf8EncodeChar_not_mem_47 c hcn hm
    · exact ih ht hm

/-- C10 counterexample: with the working directory `/wd` and input path
`song.flac`, the relative path has empty directory component, and the
returned path `/song.flac` has directory component `/` — the directory
component is NOT unchanged (the result even became absolute-looking). -/
theorem fix_byte_limit_c10_cex :
    fix_byte_limit "/wd" "song.flac" 250 = .ok "/song.flac" ∧
    pySplitL ("song.flac".toList) = ([], "song.flac".toList) ∧
    pySplitL ("/song.flac".toList) = (['/'], "song.flac".toList) ∧
    ([] : List Char) ≠ ['/'] :=
  ⟨rfl, rfl, rfl, by decide⟩

/-- C10 (amended): for every input path, working directory and byte
limit, `fix_byte_limit` returns (directory ++ "/" ++ fixed filename)
where the directory component of the relativized path is reused
unchanged and the fixed filename re-encodes to at most `byte_limit`
UTF-8 bytes (truncation mid-character never raises: the decoder with
`errors='ignore'` drops the partial character).  Splitting the returned
path recovers the fixed filename exactly, and its directory component
equals the original directory except when that directory is empty or
all slashes, in which case a slash is appended (an empty directory
yields a leading `/`). -/
theorem fix_byte_limit_spec (cwd path : String) (byte_limit : Nat) (rel : List Char)
    (hrel : relpathL cwd.toList path.toList = .ok rel) :
    ∃ d f, pySplitL (backslashToSlash rel) = (d, f) ∧
      fix_byte_limit cwd path byte_limit =
        .ok ⟨d ++ '/' :: utf8DecodeIgnore ((utf8Encode f).take byte_limit)⟩ ∧
      (utf8Encode (utf8DecodeIgnore ((utf8Encode f).take byte_limit))).length ≤
        byte_limit ∧
      pySplitL (d ++ '/' :: utf8DecodeIgnore ((utf8Encode f).take byte_limit)) =
        ((if d.all (fun c => c == '/') then d ++ ['/'] else d),
         utf8DecodeIgnore ((utf8Encode f).take byte_limit)) := by
  refine ⟨(pySplitL (backslashToSlash rel)).1, (pySplitL (backslashToSlash rel)).2,
    rfl, ?_, ?_, ?_⟩
  · simp only [fix_byte_limit, hrel]
  · calc (utf8Encode (utf8DecodeIgnore
        ((utf8Encode (pySplitL (backslashToSlash rel)).2).take byte_limit))).length
        ≤ ((utf8Encode (pySplitL (backslashToSlash rel)).2).take byte_limit).length :=
          encode_decodeAux_length_le _ _
      _ ≤ byte_limit := by
          rw [List.length_take]
          omega
  · have hf : '/' ∉ utf8DecodeIgnore
        ((utf8Encode (pySplitL (backslashToSlash rel)).2).take byte_limit) := by
      apply decodeAux_no_slash
      intro hmem
      exact not_mem_47_utf8Encode _ (pySplitL_tail_not_mem _)
        (List.take_subset _ _ hmem)
    exact pySplitL_append_slash _ _ hf (pySplitL_head_shape _)

theorem fix_byte_limit_spec_witness :
    (relpathL "/wd".toList "/wd/a/b.flac".toList = .ok "a/b.flac".toList) ∧
    (∃ d f, pySplitL (backslashToSlash "a/b.flac".toList) = (d, f) ∧
      fix_byte_limit "/wd" "/wd/a/b.flac" 250 =
        .ok ⟨d ++ '/' :: utf8DecodeIgnore ((utf8Encode f).take 250)⟩ ∧
      (utf8Encode (utf8DecodeIgnore ((utf8Encode f).take 250))).length ≤ 250 ∧
      pySplitL (d ++ '/' :: utf8DecodeIgnore ((utf8Encode f).take 250)) =
        ((if d.all (fun c => c == '/') then d ++ ['/'] else d),
         utf8DecodeIgnore ((utf8Encode f).take 250))) :=
  ⟨rfl, fix_byte_limit_spec "/wd" "/wd/a/b.flac" 250 "a/b.flac".toList rfl⟩
